import Mathlib

/-!
Verification of the Bicing history store, CSV seed/export codec, pattern
analytics and short-horizon prediction engine.

The definitions below are a shallow embedding of the TypeScript sources:

* `src/unnamed/part_001` — IndexedDB snapshot store (`saveSnapshot`,
  `getSnapshotCount`, `getHistory`, `getStationHistory`, `getAllHistory`,
  `clearDatabase`, `seedDatabaseFromCSV`, `downloadCSV`);
* `src/services/predictionService.ts` — `predictStationAvailability`;
* `src/components/StationAnalyticsModal.tsx` — the `analysis` `useMemo`.

Modelling conventions:

* Text is modelled as `List Char` (`Str`); JavaScript `String.split`,
  `Array.join`, `trim`, `replace` are modelled by the corresponding list
  functions below.
* A JavaScript `number` that can be `NaN` is modelled as `Option ℚ`
  (`none` = `NaN`); exact arithmetic on floats is modelled by rational
  arithmetic.  `Math.sqrt` is modelled by `Real.sqrt`.
* The store (an IndexedDB object store with an auto-increment key) is the
  list of snapshots in insertion order; `getAll` returns that list.
* `Date` computations (`getDay`, `getHours`, `getMinutes`, `toISOString`)
  are modelled in UTC; the host's local timezone offset is taken to be 0.
* Asynchrony and storage failures are not modelled: every claim below is
  about the success path, and the spec's failure semantics (resolve to a
  safe default) is orthogonal to the verified properties.
-/

/-- Text, modelled as the list of characters of a JavaScript string. -/
abbrev Str := List Char

/-! ### Decimal digits and number rendering -/

/-- The character for a decimal digit `d < 10` (JS number-to-string uses
decimal digits). -/
def digitChar (d : ℕ) : Char := Char.ofNat (48 + d)

/-- Numeric value of a digit character. -/
def digitVal (c : Char) : ℕ := c.toNat - 48

/-- Most-significant-first decimal digits of a natural number. -/
def natDigits (n : ℕ) : List ℕ :=
  if h : n < 10 then [n] else natDigits (n / 10) ++ [n % 10]
decreasing_by exact Nat.div_lt_self (by omega) (by omega)

/-- Decimal rendering of a natural number, as JS renders an integral
float. -/
def natToStr (n : ℕ) : Str := (natDigits n).map digitChar

/-- Decimal rendering of an integer. -/
def intToStr (i : ℤ) : Str :=
  if i < 0 then '-' :: natToStr i.natAbs else natToStr i.natAbs

/-- Fixed-width (`k` digits, zero padded) decimal digits of `n`. -/
def padDigits (k n : ℕ) : List ℕ :=
  match k with
  | 0 => []
  | k + 1 => padDigits k (n / 10) ++ [n % 10]

/-- Fixed-width zero-padded decimal rendering. -/
def padStr (k n : ℕ) : Str := (padDigits k n).map digitChar

/-- Rendering of a rational as JS renders the correspondingly valued
float: integers in plain decimal, other values (every JS float is dyadic,
hence has a finite decimal expansion) in decimal point notation.  Values
whose denominator divides no power of ten (unreachable from floats) fall
back to a fraction rendering; only the absence of `;` and newlines in the
output is relied upon for those. -/
def qToStr (q : ℚ) : Str :=
  if q.den = 1 then intToStr q.num
  else
    match (List.range (q.den + 1)).find? (fun k => decide (q.den ∣ 10 ^ k)) with
    | some k =>
        let scaled := q.num.natAbs * 10 ^ k / q.den
        (if q.num < 0 then ['-'] else []) ++
          natToStr (scaled / 10 ^ k) ++ '.' :: padStr k (scaled % 10 ^ k)
    | none => intToStr q.num ++ '/' :: natToStr q.den

/-- Rendering of a possibly-`NaN` JS number (`NaN` prints as `"NaN"`). -/
def jsNumToStr (v : Option ℚ) : Str :=
  match v with
  | none => ['N', 'a', 'N']
  | some q => qToStr q

/-! ### JS numeric string parsing -/

/-- Value of a most-significant-first digit-character run. -/
def digitsVal (ds : Str) : ℕ := ds.foldl (fun a c => 10 * a + digitVal c) 0

/-- `parseInt(s)` (radix unspecified, hence 10, or 16 after a `0x`/`0X`
prefix): skip leading whitespace, optional sign, then the longest leading
digit run; `NaN` (here `none`) if that run is empty. -/
def parseIntJS (s : Str) : Option ℤ :=
  let s := s.dropWhile Char.isWhitespace
  let core : Str → Option ℕ := fun t =>
    match t with
    | '0' :: 'x' :: rest =>
        let ds := rest.takeWhile (fun c => c.isDigit ||
          ('a' ≤ c && c ≤ 'f') || ('A' ≤ c && c ≤ 'F'))
        if ds.isEmpty then none
        else some (ds.foldl (fun a c =>
          16 * a + (if c.isDigit then digitVal c
                    else if 'a' ≤ c && c ≤ 'f' then c.toNat - 87
                    else c.toNat - 55)) 0)
    | '0' :: 'X' :: rest =>
        let ds := rest.takeWhile (fun c => c.isDigit ||
          ('a' ≤ c && c ≤ 'f') || ('A' ≤ c && c ≤ 'F'))
        if ds.isEmpty then none
        else some (ds.foldl (fun a c =>
          16 * a + (if c.isDigit then digitVal c
                    else if 'a' ≤ c && c ≤ 'f' then c.toNat - 87
                    else c.toNat - 55)) 0)
    | _ =>
        let ds := t.takeWhile Char.isDigit
        if ds.isEmpty then none else some (digitsVal ds)
  match s with
  | '-' :: rest => (core rest).map (fun n => -(n : ℤ))
  | '+' :: rest => (core rest).map (fun n => (n : ℤ))
  | _ => (core s).map (fun n => (n : ℤ))

/-- `parseFloat(s)`: skip leading whitespace, optional sign, decimal
digits with an optional fractional part and an optional exponent; `NaN`
(`none`) when no digit is consumed.  (`Infinity` literals are not
modelled; no claim depends on them.) -/
def parseFloatJS (s : Str) : Option ℚ :=
  let s := s.dropWhile Char.isWhitespace
  let (sign, s) : ℚ × Str :=
    match s with
    | '-' :: rest => (-1, rest)
    | '+' :: rest => (1, rest)
    | _ => (1, s)
  let intDs := s.takeWhile Char.isDigit
  let s1 := s.drop intDs.length
  let (fracDs, s2) : Str × Str :=
    match s1 with
    | '.' :: rest => (rest.takeWhile Char.isDigit, rest.drop (rest.takeWhile Char.isDigit).length)
    | _ => ([], s1)
  if intDs.isEmpty && fracDs.isEmpty then none
  else
    let mant : ℚ := (digitsVal intDs : ℚ) +
      (digitsVal fracDs : ℚ) / (10 : ℚ) ^ fracDs.length
    let expPart : ℚ :=
      match s2 with
      | 'e' :: rest =>
          match rest with
          | '-' :: ds =>
              let e := ds.takeWhile Char.isDigit
              if e.isEmpty then 1 else (10 : ℚ) ^ (-(digitsVal e : ℤ))
          | '+' :: ds =>
              let e := ds.takeWhile Char.isDigit
              if e.isEmpty then 1 else (10 : ℚ) ^ (digitsVal e : ℤ)
          | ds =>
              let e := ds.takeWhile Char.isDigit
              if e.isEmpty then 1 else (10 : ℚ) ^ (digitsVal e : ℤ)
      | 'E' :: rest =>
          match rest with
          | '-' :: ds =>
              let e := ds.takeWhile Char.isDigit
              if e.isEmpty then 1 else (10 : ℚ) ^ (-(digitsVal e : ℤ))
          | '+' :: ds =>
              let e := ds.takeWhile Char.isDigit
              if e.isEmpty then 1 else (10 : ℚ) ^ (digitsVal e : ℤ)
          | ds =>
              let e := ds.takeWhile Char.isDigit
              if e.isEmpty then 1 else (10 : ℚ) ^ (digitsVal e : ℤ)
      | _ => 1
    some (sign * mant * expPart)

/-- A line that `!line.trim()` rejects: empty or all whitespace. -/
def isBlank (s : Str) : Bool := s.all Char.isWhitespace

/-! ### Splitting and joining (JS `String.split` / `Array.join`) -/

/-- `s.split(sep)` for a one-character separator. -/
def splitOnChar (sep : Char) : Str → List Str
  | [] => [[]]
  | c :: rest =>
      if c = sep then [] :: splitOnChar sep rest
      else
        match splitOnChar sep rest with
        | s :: ss => (c :: s) :: ss
        | [] => [[c]]

/-- `pieces.join(sep)` for a one-character separator. -/
def joinChar (sep : Char) : List Str → Str
  | [] => []
  | [p] => p
  | p :: rest => p ++ sep :: joinChar sep rest

/-! ### The Gregorian calendar (JS `Date` in UTC)

`Date.prototype.toISOString` renders the timestamp in the proleptic
Gregorian calendar (UTC).  `civilFromDays` converts a day count since the
Unix epoch into a civil date (year, month, day); `daysFromCivil` is its
inverse.  The year-of-era is obtained by a guess-and-correct step (the
guess `doe / 365` overshoots by at most one year), which computes the
same civil date as the usual textbook routine. -/

/-- Day number (within an era, March-based) on which year-of-era `yoe`
starts. -/
def yearStart (yoe : ℕ) : ℕ := 365 * yoe + yoe / 4 - yoe / 100

/-- Era (400-year Gregorian cycle) of a shifted day number. -/
def eraOf (z : ℕ) : ℕ := (z + 719468) / 146097

/-- Day-of-era of a shifted day number. -/
def doeOf (z : ℕ) : ℕ := (z + 719468) % 146097

/-- Year-of-era of a day-of-era, by a guess (`doe / 365`, clamped)
corrected downward by at most one. -/
def yoeOfDoe (doe : ℕ) : ℕ :=
  if yearStart (min (doe / 365) 399) ≤ doe then min (doe / 365) 399
  else min (doe / 365) 399 - 1

/-- Day-of-(March-based)-year of a day-of-era. -/
def doyOfDoe (doe : ℕ) : ℕ := doe - yearStart (yoeOfDoe doe)

/-- March-based month index (0 = March … 11 = February) of a
day-of-year. -/
def mpOfDoy (doy : ℕ) : ℕ := (5 * doy + 2) / 153

/-- Day-of-month (1-based) of a day-of-year. -/
def dayOfDoy (doy : ℕ) : ℕ := doy - (153 * mpOfDoy doy + 2) / 5 + 1

/-- Calendar month (1–12) of a day-of-year. -/
def monthOfDoy (doy : ℕ) : ℕ :=
  if mpOfDoy doy < 10 then mpOfDoy doy + 3 else mpOfDoy doy - 9

/-- Civil date `(year, month, day)` of day number `z` (days since
1970-01-01, `z ≥ 0`). -/
def civilFromDays (z : ℕ) : ℕ × ℕ × ℕ :=
  ((if monthOfDoy (doyOfDoe (doeOf z)) ≤ 2
      then yoeOfDoe (doeOf z) + eraOf z * 400 + 1
      else yoeOfDoe (doeOf z) + eraOf z * 400),
   monthOfDoy (doyOfDoe (doeOf z)),
   dayOfDoy (doyOfDoe (doeOf z)))

/-- Day number since 1970-01-01 of a civil date. -/
def daysFromCivil (y m d : ℕ) : ℕ :=
  (if m ≤ 2 then y - 1 else y) / 400 * 146097 +
    (yearStart ((if m ≤ 2 then y - 1 else y) % 400) +
      ((153 * (if 2 < m then m - 3 else m + 9) + 2) / 5 + d - 1)) - 719468

/-- The broken-down UTC representation of an epoch-milliseconds value. -/
structure DateParts where
  year : ℕ
  month : ℕ
  day : ℕ
  hour : ℕ
  minute : ℕ
  second : ℕ
  millis : ℕ
deriving DecidableEq, Repr

/-- Break an epoch-milliseconds value (non-negative) into UTC date
parts. -/
def datePartsOf (t : ℕ) : DateParts :=
  let c := civilFromDays (t / 86400000)
  let msod := t % 86400000
  { year := c.1, month := c.2.1, day := c.2.2
    hour := msod / 3600000
    minute := msod % 3600000 / 60000
    second := msod % 60000 / 1000
    millis := msod % 1000 }

/-- Epoch milliseconds of broken-down UTC date parts. -/
def msOfParts (p : DateParts) : ℕ :=
  daysFromCivil p.year p.month p.day * 86400000 +
    p.hour * 3600000 + p.minute * 60000 + p.second * 1000 + p.millis

/-- Largest epoch-milliseconds value rendered with a four-digit year
(10000-01-01T00:00:00.000Z minus one millisecond); the verified claims
about the textual codec restrict timestamps to `[0, isoMsBound)`. -/
def isoMsBound : ℕ := 253402300800000

/-- `Date.prototype.toISOString` for `0 ≤ t < isoMsBound`:
`YYYY-MM-DDTHH:mm:ss.sssZ`. -/
def isoString (t : ℕ) : Str :=
  let p := datePartsOf t
  padStr 4 p.year ++ '-' :: (padStr 2 p.month ++ '-' :: (padStr 2 p.day ++
    'T' :: (padStr 2 p.hour ++ ':' :: (padStr 2 p.minute ++ ':' ::
    (padStr 2 p.second ++ '.' :: (padStr 3 p.millis ++ ['Z']))))))

/-- `toISOString` on a stored (integer) timestamp.  Modelled for
non-negative timestamps; the verified claims restrict to
`[0, isoMsBound)`.  (Outside that range JS renders expanded years or
throws a `RangeError`.) -/
def isoStringZ (t : ℤ) : Str := isoString t.toNat

/-- Parse a strict `YYYY-MM-DDTHH:mm:ss.sssZ` string back into epoch
milliseconds.  Models `new Date(s).getTime()` on the strings produced by
`toISOString`; other inputs yield `none` (JS: `NaN`; the looser formats
`Date.parse` also accepts are not needed by any claim — a seeded
snapshot's timestamp value is never observed by the verified claims). -/
def parseIsoModel (s : Str) : Option ℕ :=
  match s with
  | [y1, y2, y3, y4, c1, m1, m2, c2, d1, d2, c3,
     h1, h2, c4, mi1, mi2, c5, s1, s2, c6, ms1, ms2, ms3, c7] =>
      let y := digitsVal [y1, y2, y3, y4]
      let mo := digitsVal [m1, m2]
      let d := digitsVal [d1, d2]
      let h := digitsVal [h1, h2]
      let mi := digitsVal [mi1, mi2]
      let sec := digitsVal [s1, s2]
      let ms := digitsVal [ms1, ms2, ms3]
      if c1 = '-' ∧ c2 = '-' ∧ c3 = 'T' ∧ c4 = ':' ∧ c5 = ':' ∧ c6 = '.' ∧
          c7 = 'Z' ∧
          (∀ c ∈ [y1, y2, y3, y4, m1, m2, d1, d2, h1, h2, mi1, mi2,
            s1, s2, ms1, ms2, ms3], c.isDigit = true) ∧
          1 ≤ mo ∧ mo ≤ 12 ∧ 1 ≤ d ∧ d ≤ 31 ∧ h ≤ 23 ∧ mi ≤ 59 ∧
          sec ≤ 59 ∧ 1970 ≤ y then
        some (msOfParts ⟨y, mo, d, h, mi, sec, ms⟩)
      else none
  | _ => none

/-- `new Date(isoDate).getTime()` as stored by the CSV seeder.  JS stores
`NaN` for unparseable strings; the model stores `0` — the difference is
unobservable in the verified claims, which never inspect a seeded
snapshot's timestamp value. -/
def dateParseModel (s : Str) : ℤ := ((parseIsoModel s).getD 0 : ℕ)

/-- `Date.prototype.toLocaleString`, used only as an opaque CSV column
that the importer never reads; it is locale dependent, so it is modelled
by the ISO rendering (all that matters is that it contains no `;` and no
newline). -/
def toLocaleStringModel (t : ℤ) : Str := isoStringZ t

/-- `getDay()` (0 = Sunday … 6 = Saturday) of an epoch-ms timestamp;
local timezone modelled as UTC. -/
def jsGetDay (t : ℤ) : ℤ := (t.fdiv 86400000 + 4).emod 7

/-- `getHours()` of an epoch-ms timestamp; local timezone modelled as
UTC. -/
def jsGetHours (t : ℤ) : ℤ := (t.fdiv 3600000).emod 24

/-- `getMinutes()` of an epoch-ms timestamp. -/
def jsGetMinutes (t : ℤ) : ℤ := (t.fdiv 60000).emod 60

/-! ### Data model (`src/unnamed/part_001`)

`Station` is the stored per-station projection.  Numeric fields that the
code can set to `NaN` (the seeder's `parseInt`/station feed) have type
`Option ℚ` with `none` = `NaN`. -/

/-- The optional `extra` sub-record of a station.  `ebikes : none`
covers both an absent field and `NaN` — every read site guards with
`|| 0`, which collapses the two. -/
structure Extra where
  ebikes : Option ℚ := none
  status : Option Str := none
  online : Option Bool := none
deriving DecidableEq, Repr

/-- A stored station record. -/
structure Station where
  id : Str
  name : Str
  latitude : ℚ
  longitude : ℚ
  free_bikes : Option ℚ
  empty_slots : Option ℚ
  timestamp : Str
  extra : Option Extra := none
deriving DecidableEq, Repr

/-- One stored snapshot: the whole network at one instant.  The
IndexedDB auto-increment `id` key is the position in the store list. -/
structure Snapshot where
  timestamp : ℤ
  stations : List Station
deriving DecidableEq, Repr

/-- A derived per-station history point (`StationHistoryPoint`). -/
structure StationHistoryPoint where
  timestamp : ℤ
  free_bikes : Option ℚ
  empty_slots : Option ℚ
  ebikes : ℚ
  mechanical : Option ℚ
  status : Bool
deriving DecidableEq, Repr

/-- The store: list of snapshots in insertion (auto-increment key)
order; `getAll` retrieves exactly this list. -/
abbrev Store := List Snapshot

/-- `x || 0` on a JS number: `NaN` (and an absent value) becomes `0`. -/
def jsOr0 (v : Option ℚ) : ℚ := v.getD 0

/-- `st.extra?.ebikes || 0`. -/
def ebikesOf (st : Station) : ℚ := jsOr0 (st.extra.bind Extra.ebikes)

/-- `saveSnapshot(stations)`: append one minimized snapshot taken at
`now` (`Date.now()`). -/
def saveSnapshot (stations : List Station) (now : ℤ) (db : Store) : Store :=
  db ++ [{ timestamp := now
           stations := stations.map (fun s =>
             { id := s.id, name := s.name
               latitude := s.latitude, longitude := s.longitude
               free_bikes := s.free_bikes, empty_slots := s.empty_slots
               timestamp := s.timestamp
               extra := some { ebikes := s.extra.bind Extra.ebikes
                               status := s.extra.bind Extra.status
                               online := s.extra.bind Extra.online } }) }]

/-- `getSnapshotCount()`. -/
def getSnapshotCount (db : Store) : ℕ := db.length

/-- `getHistory(limit)`: reverse of insertion order, truncated. -/
def getHistory (limit : ℕ) (db : Store) : List Snapshot :=
  db.reverse.take limit

/-- `getAllHistory()`. -/
def getAllHistory (db : Store) : List Snapshot := db

/-- `clearDatabase()`. -/
def clearDatabase (_db : Store) : Store := []

/-- `'offline'` iff `extra?.status === 'CLOSED' || extra?.online ===
false`; `status` is `true` for `'online'`. -/
def stationOnline (st : Station) : Bool :=
  ¬(st.extra.bind Extra.status = some ['C', 'L', 'O', 'S', 'E', 'D'] ∨
    st.extra.bind Extra.online = some false)

/-- The history point extracted from one snapshot for one station. -/
def historyPointOf (snap : Snapshot) (st : Station) : StationHistoryPoint :=
  { timestamp := snap.timestamp
    free_bikes := st.free_bikes
    empty_slots := st.empty_slots
    ebikes := ebikesOf st
    mechanical := st.free_bikes.map (fun fb => max 0 (fb - ebikesOf st))
    status := stationOnline st }

/-- `getStationHistory(stationId)`: scan every snapshot, keep the
matching station record if present, then sort ascending by timestamp
(`points.sort((a, b) => a.timestamp - b.timestamp)`). -/
def getStationHistory (stationId : Str) (db : Store) :
    List StationHistoryPoint :=
  let points := db.filterMap (fun snap =>
    (snap.stations.find? (fun s => s.id = stationId)).map
      (historyPointOf snap))
  points.mergeSort (fun a b => a.timestamp ≤ b.timestamp)

/-! ### CSV seeding (`seedDatabaseFromCSV`) -/

/-- Strip the regex `/^"|"$/g`: one leading and one trailing double
quote, when present. -/
def stripEdgeQuotes (s : Str) : Str :=
  let s1 := match s with | '"' :: rest => rest | _ => s
  if s1.getLast? = some '"' then s1.dropLast else s1

/-- The station record parsed from the CSV columns of one row
(`cols.length ≥ 7` guaranteed by the caller).
Format: `Timestamp_ISO;Timestamp_Local;Station_ID;Station_Name;
Free_Bikes;Empty_Slots;E_Bikes;Latitude;Longitude`. -/
def stationOfCols (cols : List Str) : Station :=
  let lat := if 7 < cols.length then parseFloatJS (cols.getD 7 []) else some 0
  let lng := if 8 < cols.length then parseFloatJS (cols.getD 8 []) else some 0
  { id := cols.getD 2 []
    name := stripEdgeQuotes (cols.getD 3 [])
    free_bikes := (parseIntJS (cols.getD 4 [])).map (fun i => (i : ℚ))
    empty_slots := (parseIntJS (cols.getD 5 [])).map (fun i => (i : ℚ))
    timestamp := cols.getD 0 []
    latitude := lat.getD 0
    longitude := lng.getD 0
    extra := some { ebikes := ((parseIntJS (cols.getD 6 [])).map (fun i => (i : ℚ))) } }

/-- Append a station to its timestamp group, preserving `Map` insertion
order (new keys go to the back, existing keys are extended in place). -/
def insertGrouped (key : Str) (st : Station) :
    List (Str × List Station) → List (Str × List Station)
  | [] => [(key, [st])]
  | (k, sts) :: rest =>
      if k = key then (k, sts ++ [st]) :: rest
      else (k, sts) :: insertGrouped key st rest

/-- Process one data line: skip blank lines and rows with fewer than 7
semicolon-separated columns, otherwise group the parsed station under
its `Timestamp_ISO` column. -/
def seedLineStep (groups : List (Str × List Station)) (line : Str) :
    List (Str × List Station) :=
  if isBlank line then groups
  else
    let cols := splitOnChar ';' line
    if cols.length < 7 then groups
    else insertGrouped (cols.getD 0 []) (stationOfCols cols) groups

/-- The timestamp groups parsed from the CSV text (header line
dropped). -/
def seedGroups (csvText : Str) : List (Str × List Station) :=
  ((splitOnChar '\n' csvText).drop 1).foldl seedLineStep []

/-- `seedDatabaseFromCSV`: refuse when the store is non-empty, parse and
group the rows, bulk-append one snapshot per group.  Returns the success
flag and the new store contents.  (The `fetch` of the CSV URL is the
caller's concern; the text is passed directly.) -/
def seedDatabaseFromCSV (csvText : Str) (db : Store) : Bool × Store :=
  if 0 < getSnapshotCount db then (false, db)
  else
    let groups := seedGroups csvText
    if groups.isEmpty then (false, db)
    else
      (true, db ++ groups.map (fun g =>
        { timestamp := dateParseModel g.1, stations := g.2 }))

/-! ### CSV export (`downloadCSV`) -/

/-- The CSV header row. -/
def csvHeader : Str :=
  ("Timestamp_ISO;Timestamp_Local;Station_ID;Station_Name;" ++
   "Free_Bikes;Empty_Slots;E_Bikes;Latitude;Longitude").data

/-- `st.name.replace(/"/g, '""')` wrapped in double quotes. -/
def safeName (name : Str) : Str :=
  '"' :: (name.flatMap (fun c => if c = '"' then ['"', '"'] else [c])) ++ ['"']

/-- One exported CSV row for a station inside a snapshot. -/
def csvRow (snapTs : ℤ) (st : Station) : Str :=
  joinChar ';'
    [isoStringZ snapTs, toLocaleStringModel snapTs, st.id,
     safeName st.name, jsNumToStr st.free_bikes, jsNumToStr st.empty_slots,
     qToStr (ebikesOf st), qToStr st.latitude, qToStr st.longitude]

/-- The text `downloadCSV` serializes: header plus one line per
(snapshot × station), each line newline-terminated.  `none` when the
store is empty (the code alerts and produces no file). -/
def exportTable (db : Store) : Option Str :=
  if db.isEmpty then none
  else some (csvHeader ++ '\n' ::
    (db.flatMap (fun snap =>
      snap.stations.flatMap (fun st => csvRow snap.timestamp st ++ ['\n']))))

/-! ### NaN-aware JS arithmetic -/

/-- JS `+` on possibly-`NaN` numbers. -/
def jsAdd (a b : Option ℚ) : Option ℚ :=
  match a, b with
  | some x, some y => some (x + y)
  | _, _ => none

/-- JS `-` on possibly-`NaN` numbers. -/
def jsSub (a b : Option ℚ) : Option ℚ :=
  match a, b with
  | some x, some y => some (x - y)
  | _, _ => none

/-- JS `*` on possibly-`NaN` numbers. -/
def jsMul (a b : Option ℚ) : Option ℚ :=
  match a, b with
  | some x, some y => some (x * y)
  | _, _ => none

/-- Multiply by a (never-`NaN`) constant. -/
def jsMulQ (a : Option ℚ) (w : ℚ) : Option ℚ := a.map (fun q => q * w)

/-- Divide by an array length; only used under `length > 0` guards. -/
def jsDivNat (a : Option ℚ) (n : ℕ) : Option ℚ :=
  if n = 0 then none else a.map (fun q => q / (n : ℚ))

/-- `a > c` on a possibly-`NaN` left operand (`NaN > c` is `false`). -/
def jsGtB (a : Option ℚ) (c : ℚ) : Bool :=
  match a with
  | none => false
  | some q => decide (c < q)

/-- `a === c` on a possibly-`NaN` left operand (`NaN === c` is
`false`). -/
def jsEqB (a : Option ℚ) (c : ℚ) : Bool :=
  match a with
  | none => false
  | some q => decide (q = c)

/-- `c ≤ a` on a possibly-`NaN` operand (`false` for `NaN`). -/
def jsGeB (v : Option ℚ) (c : ℚ) : Bool :=
  match v with
  | none => false
  | some q => decide (c ≤ q)

/-- `array.reduce((acc, x) => acc + x, 0)` over JS numbers. -/
def jsSum (xs : List (Option ℚ)) : Option ℚ := xs.foldl jsAdd (some 0)

/-- `Math.round` on an exact (rational) value: round half towards
`+∞`. -/
def jsRoundQ (q : ℚ) : ℤ := ⌊q + 1 / 2⌋

/-- `Math.round` on a real value. -/
noncomputable def jsRoundR (x : ℝ) : ℤ := ⌊x + 1 / 2⌋

/-! ### Pattern analytics (`StationAnalyticsModal`, `analysis` memo)

Only the summary scalars are embedded; the 48-bucket `patternData`
array and the `bestSlot`/`worstSlot` selections feed rendering only and
are referenced by no verified claim. -/

/-- The summary scalars of the `analysis` memo. -/
structure Analysis where
  reliability : ℚ
  emptyRatio : ℚ
  avgEbikes : ℚ
  maxCapacityObserved : ℚ
  totalPoints : ℕ
  avgHourlyFlow : ℚ
deriving DecidableEq, Repr

/-- The `maxCapacityObserved` accumulation: `cap = free_bikes +
empty_slots; if (cap > max) max = cap` (a `NaN` capacity never wins the
comparison). -/
def maxCapFold (points : List StationHistoryPoint) : ℚ :=
  points.foldl (fun m p =>
    match jsAdd p.free_bikes p.empty_slots with
    | some cap => if m < cap then cap else m
    | none => m) 0

/-- The `totalMoves` accumulation: walk the series with `lastBikes`
(initially `-1`), adding `|Δ free_bikes|` whenever the guard
`lastBikes !== -1` passes and the delta compares against 0 (a `NaN`
delta adds nothing). -/
def totalMovesFold (points : List StationHistoryPoint) : ℚ :=
  (points.foldl (fun acc p =>
    let lastBikes := acc.1
    let total := acc.2
    let total' :=
      if lastBikes ≠ some (-1 : ℚ) then
        match jsSub p.free_bikes lastBikes with
        | some delta =>
            if 0 < delta then total + delta
            else if delta < 0 then total + |delta| else total
        | none => total
      else total
    (p.free_bikes, total')) ((some (-1 : ℚ), 0) : Option ℚ × ℚ)).2

/-- The `analysis` memo: `null` for histories shorter than 2, otherwise
the summary scalars (`reliability` and `emptyRatio` are percentages). -/
def analysisOf (history : List StationHistoryPoint) : Option Analysis :=
  if history.length < 2 then none
  else
    let total := history.length
    let reliableCount := history.countP (fun p => jsGtB p.free_bikes 2)
    let emptyInstances := history.countP (fun p => jsEqB p.free_bikes 0)
    let totalEbikesRaw := (history.map StationHistoryPoint.ebikes).sum
    some
      { reliability := ((reliableCount : ℚ) / (total : ℚ)) * 100
        emptyRatio := ((emptyInstances : ℚ) / (total : ℚ)) * 100
        avgEbikes := totalEbikesRaw / (total : ℚ)
        maxCapacityObserved := maxCapFold history
        totalPoints := total
        avgHourlyFlow := totalMovesFold history / ((total : ℚ) / 12) }

/-! ### Prediction engine (`src/services/predictionService.ts`) -/

/-- The in-memory per-station series the prediction engine builds:
`{ timestamp, bikes }`. -/
structure SHPoint where
  timestamp : ℤ
  bikes : Option ℚ
deriving DecidableEq, Repr

/-- An emitted prediction point. -/
structure PredictionPoint where
  time : Str
  bikes : Option ℤ
  isProjected : Bool
  confidenceHigh : Option ℤ
  confidenceLow : Option ℤ

/-- `timeSlots = [0, 15, 30, 45, 60]` (minutes of horizon). -/
def timeSlots : List ℤ := [0, 15, 30, 45, 60]

/-- Step 1 of the algorithm: per-station extraction from the full
history (`{ timestamp: snap.timestamp, bikes: s.free_bikes }`, skipping
snapshots without the station). -/
def stationHistoryOf (history : List Snapshot) (id : Str) : List SHPoint :=
  history.filterMap (fun snap =>
    (snap.stations.find? (fun st => st.id = id)).map
      (fun s => ⟨snap.timestamp, s.free_bikes⟩))

/-- Minute-of-day of a timestamp (`getHours() * 60 + getMinutes()`). -/
def minuteOfDay (t : ℤ) : ℤ := jsGetHours t * 60 + jsGetMinutes t

/-- The similarity set: same day of week, minute-of-day within 30. -/
def similarAt (sh : List SHPoint) (targetTime : ℤ) : List SHPoint :=
  sh.filter (fun h =>
    decide (jsGetDay h.timestamp = jsGetDay targetTime) &&
    decide (|minuteOfDay h.timestamp - minuteOfDay targetTime| ≤ 30))

/-- The fallback set: same weekend/weekday class, minute-of-day within
30. -/
def weekendClassAt (sh : List SHPoint) (targetTime : ℤ) : List SHPoint :=
  let isWeekend := jsGetDay targetTime = 0 ∨ jsGetDay targetTime = 6
  sh.filter (fun h =>
    decide ((jsGetDay h.timestamp = 0 ∨ jsGetDay h.timestamp = 6) ↔ isWeekend) &&
    decide (|minuteOfDay h.timestamp - minuteOfDay targetTime| ≤ 30))

/-- The sample set actually used: the similarity set, replaced by the
weekend-class fallback when it has fewer than 3 points. -/
def samplesAt (sh : List SHPoint) (targetTime : ℤ) : List SHPoint :=
  let s := similarAt sh targetTime
  if s.length < 3 then weekendClassAt sh targetTime else s

/-- `avg` of the sample set (used only under `samples.length > 0`). -/
def avgAt (samples : List SHPoint) : Option ℚ :=
  jsDivNat (jsSum (samples.map SHPoint.bikes)) samples.length

/-- Population variance of the sample set. -/
def varAt (samples : List SHPoint) : Option ℚ :=
  let avg := avgAt samples
  jsDivNat
    (jsSum (samples.map (fun h =>
      jsMul (jsSub h.bikes avg) (jsSub h.bikes avg))))
    samples.length

/-- `predictedBikes` for one slot: the live value at offset 0 or when
there are no samples, otherwise the decay blend
`current * (1 - offset/60) + avg * (offset/60)`. -/
def slotPredicted (samples : List SHPoint) (cur : Option ℚ) (off : ℤ) :
    Option ℚ :=
  if off = 0 then cur
  else if 0 < samples.length then
    let hw : ℚ := (off : ℚ) / 60
    jsAdd (jsMulQ cur (1 - hw)) (jsMulQ (avgAt samples) hw)
  else cur

/-- `stdDev` for one slot: 0 at offset 0, the population standard
deviation when samples exist, else the fixed fallback 2. -/
noncomputable def slotStdDev (samples : List SHPoint) (off : ℤ) :
    Option ℝ :=
  if off = 0 then some 0
  else if 0 < samples.length then
    (varAt samples).map (fun v => Real.sqrt (v : ℝ))
  else some 2

/-- `HH:MM` label of the target time (`toLocaleTimeString` with 2-digit
hour and minute; locale modelled as 24-hour UTC). -/
def timeLabelModel (t : ℤ) : Str :=
  padStr 2 (jsGetHours t).toNat ++ ':' :: padStr 2 (jsGetMinutes t).toNat

/-- The prediction point emitted for one slot. -/
noncomputable def predictSlot (sh : List SHPoint) (cur : Option ℚ)
    (now off : ℤ) : PredictionPoint :=
  let targetTime := now + off * 60000
  let samples := samplesAt sh targetTime
  let predicted := slotPredicted samples cur off
  let sd := slotStdDev samples off
  { time := timeLabelModel targetTime
    bikes := predicted.map jsRoundQ
    isProjected := decide (0 < off)
    confidenceHigh :=
      match predicted, sd with
      | some p, some s => some (jsRoundR ((p : ℝ) + s))
      | _, _ => none
    confidenceLow :=
      match predicted, sd with
      | some p, some s => some (max 0 (jsRoundR ((p : ℝ) - s)))
      | _, _ => none }

/-- `predictStationAvailability`: empty result on an empty history or on
fewer than 5 per-station points, otherwise one point per slot.  The
history is passed in (the code reads it back via `getAllHistory`), and
`now` replaces `new Date()`. -/
noncomputable def predictStationAvailability (history : List Snapshot)
    (currentStation : Station) (now : ℤ) : List PredictionPoint :=
  if history.length = 0 then []
  else
    let currentBikes := currentStation.free_bikes
    let sh := stationHistoryOf history currentStation.id
    if sh.length < 5 then []
    else timeSlots.map (fun off => predictSlot sh currentBikes now off)

/-- Text safe for the semicolon/newline-delimited table format. -/
def goodTextB (s : Str) : Bool := s.all (fun c => !(c = ';') && !(c = '\n'))

/-- A stored JS number that is a non-negative whole number (so its
decimal rendering survives `parseInt`). -/
def wholeNumB (v : Option ℚ) : Bool :=
  match v with
  | none => false
  | some q => decide (0 ≤ q) && decide (q.den = 1)

/-- A station whose id and name are table-safe and whose free-bike count
is a non-negative integer. -/
def goodStationB (st : Station) : Bool :=
  goodTextB st.id && goodTextB st.name && wholeNumB st.free_bikes

/-- The total free-bike count over all snapshots of the store (`NaN`
counted as 0) — the aggregate the round-trip property compares. -/
def totalFreeBikes (db : Store) : ℚ :=
  (db.map (fun snap =>
    (snap.stations.map (fun st => st.free_bikes.getD 0)).sum)).sum

/-! ### Concrete fixtures used by witnesses and counterexamples -/

/-- The station of the spec's prediction scenario: current live reading
2 free bikes. -/
def scStation : Station :=
  { id := ['X']
    name := ['X']
    latitude := 0
    longitude := 0
    free_bikes := some 2
    empty_slots := some 10
    timestamp := []
    extra := none }

/-- A stored reading of station `X` with 10 free bikes. -/
def scReading : Station :=
  { id := ['X']
    name := ['X']
    latitude := 0
    longitude := 0
    free_bikes := some 10
    empty_slots := some 2
    timestamp := []
    extra := none }

/-- Monday 1970-02-16 08:00:00 UTC in epoch milliseconds — the scenario's
`now`. -/
def scNow : ℤ := 374400000 + 6 * 604800000

/-- Six snapshots of station `X` with 10 free bikes, taken on the six
Mondays before `scNow` at 08:40 local (UTC) time. -/
def scStore : Store :=
  (List.range 6).map (fun k =>
    { timestamp := 374400000 + k * 604800000 + 2400000
      stations := [scReading] })

/-- A two-point history: one reading with 5 free bikes, one with 0. -/
def cxHistory : List StationHistoryPoint :=
  [{ timestamp := 0, free_bikes := some 5, empty_slots := some 3,
     ebikes := 0, mechanical := some 5, status := true },
   { timestamp := 60000, free_bikes := some 0, empty_slots := some 8,
     ebikes := 0, mechanical := some 0, status := true }]

/-- A store holding one snapshot whose station list is empty (as
`saveSnapshot` stores when the live feed returns no stations). -/
def cxEmptyStationsStore : Store := [{ timestamp := 0, stations := [] }]

/-- A store with one snapshot of one station, used to witness the
amended round-trip. -/
def wStore : Store := [{ timestamp := 0, stations := [scReading] }]

/-- A seed row whose `Free_Bikes` column (`abc`) fails to parse. -/
def cxBadLine : Str :=
  ("2024-01-01T00:00:00.000Z;x;s9;" ++ [Char.ofNat 34].asString ++ "N" ++
    [Char.ofNat 34].asString ++ ";abc;5;1;zz;7").data

/-! ## Digit and decimal-rendering lemmas -/

theorem digitVal_digitChar {d : ℕ} (h : d < 10) : digitVal (digitChar d) = d := by
  interval_cases d <;> decide

theorem digitChar_isDigit {d : ℕ} (h : d < 10) : (digitChar d).isDigit = true := by
  interval_cases d <;> decide

theorem digitChar_ne_semi {d : ℕ} (h : d < 10) : digitChar d ≠ ';' := by
  interval_cases d <;> decide

theorem digitChar_ne_newline {d : ℕ} (h : d < 10) : digitChar d ≠ '\n' := by
  interval_cases d <;> decide

theorem isDigit_not_whitespace {c : Char} (h : c.isDigit = true) :
    c.isWhitespace = false := by
  simp only [Char.isDigit, Bool.and_eq_true, decide_eq_true_eq] at h
  simp only [Char.isWhitespace, Bool.or_eq_false_iff, decide_eq_false_iff_not]
  obtain ⟨h1, h2⟩ := h
  refine ⟨⟨⟨fun hc => ?_, fun hc => ?_⟩, fun hc => ?_⟩, fun hc => ?_⟩ <;>
    subst hc <;> revert h1 h2 <;> decide

theorem natDigits_lt (n : ℕ) : ∀ d ∈ natDigits n, d < 10 := by
  induction n using Nat.strong_induction_on with
  | _ n ih =>
    rw [natDigits]
    split
    · intro d hd
      simp only [List.mem_singleton] at hd
      omega
    · intro d hd
      rcases List.mem_append.1 hd with h | h
      · exact ih _ (Nat.div_lt_self (by omega) (by omega)) _ h
      · simp only [List.mem_singleton] at h
        omega

theorem natDigits_ne_nil (n : ℕ) : natDigits n ≠ [] := by
  rw [natDigits]
  split
  · simp
  · simp

theorem foldVal_append_singleton (xs : List ℕ) (x : ℕ) :
    (xs ++ [x]).foldl (fun a d => 10 * a + d) 0 =
      10 * xs.foldl (fun a d => 10 * a + d) 0 + x := by
  rw [List.foldl_append]
  rfl

theorem foldVal_natDigits (n : ℕ) :
    (natDigits n).foldl (fun a d => 10 * a + d) 0 = n := by
  induction n using Nat.strong_induction_on with
  | _ n ih =>
    rw [natDigits]
    split
    · simp only [List.foldl_cons, List.foldl_nil]
      omega
    · rw [foldVal_append_singleton, ih _ (Nat.div_lt_self (by omega) (by omega))]
      omega

theorem digitsVal_map_digitChar (ds : List ℕ) (h : ∀ d ∈ ds, d < 10) :
    digitsVal (ds.map digitChar) = ds.foldl (fun a d => 10 * a + d) 0 := by
  unfold digitsVal
  rw [List.foldl_map]
  induction ds using List.reverseRecOn with
  | nil => rfl
  | append_singleton xs x ih =>
      rw [List.foldl_append, List.foldl_append, ih]
      · simp only [List.foldl_cons, List.foldl_nil]
        rw [digitVal_digitChar (h x (by simp))]
      · intro d hd
        exact h d (List.mem_append.2 (Or.inl hd))

theorem digitsVal_natToStr (n : ℕ) : digitsVal (natToStr n) = n := by
  rw [natToStr, digitsVal_map_digitChar _ (natDigits_lt n), foldVal_natDigits]

theorem natToStr_all_digit (n : ℕ) : ∀ c ∈ natToStr n, c.isDigit = true := by
  intro c hc
  rcases List.mem_map.1 hc with ⟨d, hd, rfl⟩
  exact digitChar_isDigit (natDigits_lt n d hd)

theorem natToStr_ne_nil (n : ℕ) : natToStr n ≠ [] := by
  unfold natToStr
  simp only [ne_eq, List.map_eq_nil_iff]
  exact natDigits_ne_nil n

theorem dropWhile_not_head {p : Char → Bool} {s : Str}
    (h : ∀ c ∈ s, p c = false) : s.dropWhile p = s := by
  cases s with
  | nil => rfl
  | cons c cs =>
      rw [List.dropWhile_cons_of_neg]
      simp [h c (by simp)]

theorem parseIntJS_digits (s : Str) (hne : s ≠ [])
    (hdig : ∀ c ∈ s, c.isDigit = true) :
    parseIntJS s = some (digitsVal s : ℤ) := by
  have hdrop : s.dropWhile Char.isWhitespace = s := by
    apply dropWhile_not_head
    intro c hc
    exact isDigit_not_whitespace (hdig c hc)
  have htake : s.takeWhile Char.isDigit = s := List.takeWhile_eq_self_iff.2 hdig
  have hempty : s.isEmpty = false := by
    cases s with
    | nil => exact absurd rfl hne
    | cons c cs => rfl
  unfold parseIntJS
  dsimp only
  rw [hdrop]
  split
  · exact absurd (hdig '-' (by simp_all)) (by decide)
  · exact absurd (hdig '+' (by simp_all)) (by decide)
  · split
    · exact absurd (hdig 'x' (by simp_all)) (by decide)
    · exact absurd (hdig 'X' (by simp_all)) (by decide)
    · rw [htake, hempty]
      simp

theorem parseIntJS_natToStr (n : ℕ) : parseIntJS (natToStr n) = some (n : ℤ) := by
  rw [parseIntJS_digits _ (natToStr_ne_nil n) (natToStr_all_digit n),
    digitsVal_natToStr]

theorem qToStr_natCast (n : ℕ) : qToStr ((n : ℚ)) = natToStr n := by
  unfold qToStr
  rw [if_pos (Rat.den_natCast n)]
  unfold intToStr
  rw [if_neg (by simp), Rat.num_natCast]
  simp

theorem parseIntJS_qToStr_natCast (n : ℕ) :
    (parseIntJS (qToStr ((n : ℚ)))).map (fun i => (i : ℚ)) = some ((n : ℚ)) := by
  rw [qToStr_natCast, parseIntJS_natToStr]
  simp

/-! ## Calendar lemmas -/

theorem yoe_facts (doe : ℕ) (h : doe < 146097) :
    yearStart (yoeOfDoe doe) ≤ doe ∧ doe - yearStart (yoeOfDoe doe) ≤ 365 ∧
      yoeOfDoe doe ≤ 399 := by
  unfold yoeOfDoe yearStart
  split <;> omega

theorem month_facts (doy : ℕ) (h : doy ≤ 365) :
    (if 2 < monthOfDoy doy then monthOfDoy doy - 3 else monthOfDoy doy + 9) =
        mpOfDoy doy ∧
      (153 * mpOfDoy doy + 2) / 5 + dayOfDoy doy - 1 = doy ∧
      mpOfDoy doy ≤ 11 ∧ 1 ≤ dayOfDoy doy ∧ dayOfDoy doy ≤ 31 ∧
      1 ≤ monthOfDoy doy ∧ monthOfDoy doy ≤ 12 ∧
      (monthOfDoy doy ≤ 2 ↔ 306 ≤ doy) := by
  unfold monthOfDoy dayOfDoy mpOfDoy
  split <;> split <;> omega

set_option maxHeartbeats 1000000 in
theorem dfc_aux (z era doe yoe doy mp dd mo : ℕ)
    (hzs : era * 146097 + doe = z + 719468) (hdoe : doe < 146097)
    (h1a : 365 * yoe + yoe / 4 - yoe / 100 ≤ doe)
    (h1b : doe - (365 * yoe + yoe / 4 - yoe / 100) ≤ 365)
    (h1c : yoe ≤ 399)
    (hdoy : doy = doe - (365 * yoe + yoe / 4 - yoe / 100))
    (hmp : mp = (5 * doy + 2) / 153)
    (hdd : dd = doy - (153 * mp + 2) / 5 + 1)
    (hmo : mo = if mp < 10 then mp + 3 else mp - 9) :
    daysFromCivil (if mo ≤ 2 then yoe + era * 400 + 1 else yoe + era * 400)
      mo dd = z := by
  have e1 : yoe + era * 400 + 1 - 1 = yoe + era * 400 := by omega
  have e2 : (yoe + era * 400) % 400 = yoe := by omega
  have e3 : (yoe + era * 400) / 400 = era := by omega
  unfold daysFromCivil yearStart
  split at hmo <;> subst hmo <;> split_ifs <;>
    simp only [e1, e2, e3] <;> omega

theorem civil_roundtrip (z : ℕ) :
    daysFromCivil (civilFromDays z).1 (civilFromDays z).2.1
      (civilFromDays z).2.2 = z := by
  have hdoe : doeOf z < 146097 := Nat.mod_lt _ (by norm_num)
  have h1 := yoe_facts (doeOf z) hdoe
  unfold yearStart at h1
  have hzs : eraOf z * 146097 + doeOf z = z + 719468 := by
    unfold eraOf doeOf
    omega
  unfold civilFromDays
  dsimp only
  exact dfc_aux z (eraOf z) (doeOf z) (yoeOfDoe (doeOf z))
    (doyOfDoe (doeOf z)) (mpOfDoy (doyOfDoe (doeOf z)))
    (dayOfDoy (doyOfDoe (doeOf z))) (monthOfDoy (doyOfDoe (doeOf z)))
    hzs hdoe h1.1 h1.2.1 h1.2.2 rfl rfl rfl rfl

set_option maxHeartbeats 1000000 in
theorem year_bounds_aux (z era doe yoe doy mp mo : ℕ)
    (hzs : era * 146097 + doe = z + 719468) (hdoe : doe < 146097)
    (h1a : 365 * yoe + yoe / 4 - yoe / 100 ≤ doe)
    (h1b : doe - (365 * yoe + yoe / 4 - yoe / 100) ≤ 365)
    (h1c : yoe ≤ 399)
    (hdoy : doy = doe - (365 * yoe + yoe / 4 - yoe / 100))
    (hmp : mp = (5 * doy + 2) / 153)
    (hmo : mo = if mp < 10 then mp + 3 else mp - 9)
    (hz : z ≤ 2932896) :
    1970 ≤ (if mo ≤ 2 then yoe + era * 400 + 1 else yoe + era * 400) ∧
      (if mo ≤ 2 then yoe + era * 400 + 1 else yoe + era * 400) ≤ 9999 := by
  have hd1 : mp < 10 → doy ≤ 305 := by omega
  have hd2 : ¬ mp < 10 → 306 ≤ doy := by omega
  have hyA : yoe ≤ 369 → 365 * yoe + yoe / 4 - yoe / 100 ≤ 134774 := by omega
  have hyB : 365 * yoe + yoe / 4 - yoe / 100 ≤ 145731 := by omega
  have hyC : 370 ≤ yoe → 135139 ≤ 365 * yoe + yoe / 4 - yoe / 100 := by omega
  split at hmo <;> subst hmo <;> split_ifs <;> omega

theorem datePartsOf_bounds (t : ℕ) (ht : t < isoMsBound) :
    1 ≤ (datePartsOf t).month ∧ (datePartsOf t).month ≤ 12 ∧
    1 ≤ (datePartsOf t).day ∧ (datePartsOf t).day ≤ 31 ∧
    (datePartsOf t).hour ≤ 23 ∧ (datePartsOf t).minute ≤ 59 ∧
    (datePartsOf t).second ≤ 59 ∧ (datePartsOf t).millis ≤ 999 ∧
    1970 ≤ (datePartsOf t).year ∧ (datePartsOf t).year ≤ 9999 := by
  have hz : t / 86400000 ≤ 2932896 := by
    unfold isoMsBound at ht
    omega
  set z := t / 86400000 with hzdef
  have hdoe : doeOf z < 146097 := Nat.mod_lt _ (by norm_num)
  have h1 := yoe_facts (doeOf z) hdoe
  unfold yearStart at h1
  have hdoy : doyOfDoe (doeOf z) ≤ 365 := by
    unfold doyOfDoe yearStart
    exact h1.2.1
  have h2 := month_facts (doyOfDoe (doeOf z)) hdoy
  have hzs : eraOf z * 146097 + doeOf z = z + 719468 := by
    unfold eraOf doeOf
    omega
  have hy := year_bounds_aux z (eraOf z) (doeOf z) (yoeOfDoe (doeOf z))
    (doyOfDoe (doeOf z)) (mpOfDoy (doyOfDoe (doeOf z)))
    (monthOfDoy (doyOfDoe (doeOf z)))
    hzs hdoe h1.1 h1.2.1 h1.2.2 (by unfold doyOfDoe yearStart; rfl) rfl rfl hz
  unfold datePartsOf civilFromDays
  dsimp only
  refine ⟨h2.2.2.2.2.2.1, h2.2.2.2.2.2.2.1, h2.2.2.2.1, h2.2.2.2.2.1, by omega,
    by omega, by omega, by omega, hy.1, hy.2⟩

/-! ## ISO rendering lemmas -/

theorem padStr_two (n : ℕ) :
    padStr 2 n = [digitChar (n / 10 % 10), digitChar (n % 10)] := rfl

theorem padStr_three (n : ℕ) :
    padStr 3 n = [digitChar (n / 10 / 10 % 10), digitChar (n / 10 % 10),
      digitChar (n % 10)] := rfl

theorem padStr_four (n : ℕ) :
    padStr 4 n = [digitChar (n / 10 / 10 / 10 % 10), digitChar (n / 10 / 10 % 10),
      digitChar (n / 10 % 10), digitChar (n % 10)] := rfl

theorem digitsVal_two {a b : ℕ} (ha : a < 10) (hb : b < 10) :
    digitsVal [digitChar a, digitChar b] = 10 * a + b := by
  unfold digitsVal
  simp only [List.foldl_cons, List.foldl_nil, digitVal_digitChar ha,
    digitVal_digitChar hb]
  omega

theorem digitsVal_three {a b c : ℕ} (ha : a < 10) (hb : b < 10) (hc : c < 10) :
    digitsVal [digitChar a, digitChar b, digitChar c] = 100 * a + 10 * b + c := by
  unfold digitsVal
  simp only [List.foldl_cons, List.foldl_nil, digitVal_digitChar ha,
    digitVal_digitChar hb, digitVal_digitChar hc]
  omega

theorem digitsVal_four {a b c d : ℕ} (ha : a < 10) (hb : b < 10) (hc : c < 10)
    (hd : d < 10) :
    digitsVal [digitChar a, digitChar b, digitChar c, digitChar d] =
      1000 * a + 100 * b + 10 * c + d := by
  unfold digitsVal
  simp only [List.foldl_cons, List.foldl_nil, digitVal_digitChar ha,
    digitVal_digitChar hb, digitVal_digitChar hc, digitVal_digitChar hd]
  omega

theorem iso_roundtrip (t : ℕ) (ht : t < isoMsBound) :
    parseIsoModel (isoString t) = some t := by
  obtain ⟨hmo1, hmo2, hd1, hd2, hh, hmi, hs, hms, hy1, hy2⟩ :=
    datePartsOf_bounds t ht
  set p := datePartsOf t with hp
  have hyv : digitsVal [digitChar (p.year / 10 / 10 / 10 % 10),
      digitChar (p.year / 10 / 10 % 10), digitChar (p.year / 10 % 10),
      digitChar (p.year % 10)] = p.year := by
    rw [digitsVal_four (by omega) (by omega) (by omega) (by omega)]
    omega
  have hmov : digitsVal [digitChar (p.month / 10 % 10), digitChar (p.month % 10)]
      = p.month := by
    rw [digitsVal_two (by omega) (by omega)]
    omega
  have hdv : digitsVal [digitChar (p.day / 10 % 10), digitChar (p.day % 10)]
      = p.day := by
    rw [digitsVal_two (by omega) (by omega)]
    omega
  have hhv : digitsVal [digitChar (p.hour / 10 % 10), digitChar (p.hour % 10)]
      = p.hour := by
    rw [digitsVal_two (by omega) (by omega)]
    omega
  have hmiv : digitsVal [digitChar (p.minute / 10 % 10), digitChar (p.minute % 10)]
      = p.minute := by
    rw [digitsVal_two (by omega) (by omega)]
    omega
  have hsv : digitsVal [digitChar (p.second / 10 % 10), digitChar (p.second % 10)]
      = p.second := by
    rw [digitsVal_two (by omega) (by omega)]
    omega
  have hmsv : digitsVal [digitChar (p.millis / 10 / 10 % 10),
      digitChar (p.millis / 10 % 10), digitChar (p.millis % 10)] = p.millis := by
    rw [digitsVal_three (by omega) (by omega) (by omega)]
    omega
  have hcivil : msOfParts ⟨p.year, p.month, p.day, p.hour, p.minute,
      p.second, p.millis⟩ = t := by
    have h1 : p.year = (civilFromDays (t / 86400000)).1 := by rw [hp]; rfl
    have h2 : p.month = (civilFromDays (t / 86400000)).2.1 := by rw [hp]; rfl
    have h3 : p.day = (civilFromDays (t / 86400000)).2.2 := by rw [hp]; rfl
    have h4 : p.hour = t % 86400000 / 3600000 := by rw [hp]; rfl
    have h5 : p.minute = t % 86400000 % 3600000 / 60000 := by rw [hp]; rfl
    have h6 : p.second = t % 86400000 % 60000 / 1000 := by rw [hp]; rfl
    have h7 : p.millis = t % 86400000 % 1000 := by rw [hp]; rfl
    unfold msOfParts
    dsimp only
    rw [h1, h2, h3, h4, h5, h6, h7, civil_roundtrip]
    omega
  unfold isoString
  dsimp only
  rw [← hp, padStr_four, padStr_two, padStr_two, padStr_two, padStr_two,
    padStr_two, padStr_three]
  simp only [List.cons_append, List.nil_append]
  unfold parseIsoModel
  dsimp only
  rw [if_pos ?hc]
  case hc =>
    refine ⟨rfl, rfl, rfl, rfl, rfl, rfl, rfl, ?_, ?_⟩
    · intro c hc
      simp only [List.mem_cons, List.not_mem_nil, or_false] at hc
      rcases hc with h | h | h | h | h | h | h | h | h | h | h | h | h | h | h | h | h <;>
        subst h <;> exact digitChar_isDigit (by omega)
    · rw [hyv, hmov, hdv, hhv, hmiv, hsv]
      refine ⟨hmo1, hmo2, hd1, hd2, hh, hmi, hs, hy1⟩
  rw [hyv, hmov, hdv, hhv, hmiv, hsv, hmsv, hcivil]

theorem isoString_inj {t t' : ℕ} (ht : t < isoMsBound) (ht' : t' < isoMsBound)
    (h : isoString t = isoString t') : t = t' := by
  have h1 := iso_roundtrip t ht
  have h2 := iso_roundtrip t' ht'
  rw [h, h2] at h1
  exact (Option.some_injective _ h1).symm

theorem digitChar_ne_quote {d : ℕ} (h : d < 10) : digitChar d ≠ '"' := by
  interval_cases d <;> decide

theorem isoString_good (t : ℕ) :
    ∀ c ∈ isoString t, c ≠ ';' ∧ c ≠ '\n' ∧ c ≠ '"' := by
  intro c hc
  unfold isoString at hc
  dsimp only at hc
  rw [padStr_four, padStr_two, padStr_two, padStr_two, padStr_two,
    padStr_two, padStr_three] at hc
  simp only [List.cons_append, List.nil_append, List.mem_cons,
    List.not_mem_nil, or_false] at hc
  rcases hc with h | h | h | h | h | h | h | h | h | h | h | h |
      h | h | h | h | h | h | h | h | h | h | h | h <;>
    subst h <;>
    first
    | exact ⟨digitChar_ne_semi (by omega), digitChar_ne_newline (by omega),
        digitChar_ne_quote (by omega)⟩
    | exact ⟨by decide, by decide, by decide⟩

theorem isoString_head (t : ℕ) :
    ∃ c cs, isoString t = c :: cs ∧ c.isDigit = true := by
  refine ⟨digitChar ((datePartsOf t).year / 10 / 10 / 10 % 10), ?_, ?_, ?_⟩
  · exact (padStr 4 (datePartsOf t).year).tail ++ '-' ::
      (padStr 2 (datePartsOf t).month ++ '-' :: (padStr 2 (datePartsOf t).day ++
      'T' :: (padStr 2 (datePartsOf t).hour ++ ':' ::
      (padStr 2 (datePartsOf t).minute ++ ':' ::
      (padStr 2 (datePartsOf t).second ++ '.' ::
      (padStr 3 (datePartsOf t).millis ++ ['Z']))))))
  · unfold isoString
    rw [padStr_four]
    rfl
  · exact digitChar_isDigit (by omega)

/-! ## C7: station series ordering -/

theorem filterMap_map_length {α β γ : Type} (l : List α) (g : α → Option β)
    (f : α → β → γ) :
    (l.filterMap (fun x => (g x).map (f x))).length =
      (l.filter (fun x => (g x).isSome)).length := by
  induction l with
  | nil => rfl
  | cons x xs ih =>
      cases hg : g x with
      | none => simp [List.filterMap_cons, List.filter_cons, hg, ih]
      | some b => simp [List.filterMap_cons, List.filter_cons, hg, ih]

/-- C7: `stationSeries` (`getStationHistory`) returns the per-station
history sorted ascending (non-decreasing) by timestamp, for every store
state and station id, and snapshots without a record for that station
contribute no point: the series has exactly one point per snapshot whose
station list contains the id. -/
theorem C7_stationSeries_sorted (stationId : Str) (db : Store) :
    List.Pairwise (fun a b => a.timestamp ≤ b.timestamp)
        (getStationHistory stationId db) ∧
      (getStationHistory stationId db).length =
        (db.filter (fun snap =>
          (snap.stations.find? (fun s => s.id = stationId)).isSome)).length := by
  constructor
  · have h := @List.sorted_mergeSort StationHistoryPoint
      (fun a b => decide (a.timestamp ≤ b.timestamp))
      (fun a b c hab hbc => by
        simp only [decide_eq_true_eq] at *
        omega)
      (fun a b => by
        simp only [Bool.or_eq_true, decide_eq_true_eq]
        omega)
      (db.filterMap (fun snap =>
        (snap.stations.find? (fun s => s.id = stationId)).map
          (historyPointOf snap)))
    unfold getStationHistory
    exact h.imp (fun hab => by simpa using hab)
  · unfold getStationHistory
    rw [List.length_mergeSort]
    exact filterMap_map_length db _ _

/-! ## C9: analytics summary scalars -/

/-- C9 counterexample: on a two-point history with one reading above 2
free bikes, the code's `reliability` field is `50` (a percentage), not
the claimed ratio `1/2`; likewise `emptyRatio` is `50`, not `1/2`. -/
theorem C9_counterexample :
    (analysisOf cxHistory).map Analysis.reliability = some 50 ∧
      (analysisOf cxHistory).map Analysis.emptyRatio = some 50 ∧
      (50 : ℚ) ≠ 1 / 2 := by
  unfold analysisOf
  rw [if_neg (by decide)]
  refine ⟨?_, ?_, by norm_num⟩
  · simp only [Option.map_some']
    congr 1
    dsimp only
    rw [show List.countP (fun p => jsGtB p.free_bikes 2) cxHistory = 1 from by
      decide]
    rw [show cxHistory.length = 2 from rfl]
    norm_num
  · simp only [Option.map_some']
    congr 1
    dsimp only
    rw [show List.countP (fun p => jsEqB p.free_bikes 0) cxHistory = 1 from by
      decide]
    rw [show cxHistory.length = 2 from rfl]
    norm_num

/-- C9 (amended): for every history of length at least 2, the analysis
summary satisfies `reliability = 100 * count(freeBikes > 2) / total` and
`emptyRatio = 100 * count(freeBikes == 0) / total` — the claimed ratios
expressed as percentages (and the empty-probability field is named
`emptyRatio`). -/
theorem C9_analysis_ratios (history : List StationHistoryPoint)
    (hlen : 2 ≤ history.length) :
    ∃ a, analysisOf history = some a ∧
      a.reliability =
        100 * (history.countP (fun p => jsGtB p.free_bikes 2) : ℚ) /
          (history.length : ℚ) ∧
      a.emptyRatio =
        100 * (history.countP (fun p => jsEqB p.free_bikes 0) : ℚ) /
          (history.length : ℚ) := by
  unfold analysisOf
  rw [if_neg (by omega)]
  refine ⟨_, rfl, ?_, ?_⟩ <;> dsimp only <;> ring

/-- C9 witness: the amended statement at the two-point history. -/
theorem C9_analysis_ratios_witness :
    ∃ a, analysisOf cxHistory = some a ∧
      a.reliability =
        100 * (cxHistory.countP (fun p => jsGtB p.free_bikes 2) : ℚ) /
          (cxHistory.length : ℚ) ∧
      a.emptyRatio =
        100 * (cxHistory.countP (fun p => jsEqB p.free_bikes 0) : ℚ) /
          (cxHistory.length : ℚ) :=
  C9_analysis_ratios cxHistory (by decide)

/-! ## C5: the seed guard -/

/-- C5: `seedFromTable` on a store with `count() > 0` returns `false`
and leaves the store unchanged; on an empty store it returns `true` iff
at least one timestamp group was parsed from the text, in which case the
groups are appended as snapshots. -/
theorem C5_seed_guard (db : Store) (csvText : Str) :
    (0 < getSnapshotCount db →
      seedDatabaseFromCSV csvText db = (false, db)) ∧
    (getSnapshotCount db = 0 →
      ((seedDatabaseFromCSV csvText db).1 = true ↔ seedGroups csvText ≠ []) ∧
      (seedGroups csvText ≠ [] →
        (seedDatabaseFromCSV csvText db).2 =
          db ++ (seedGroups csvText).map (fun g =>
            { timestamp := dateParseModel g.1, stations := g.2 }))) := by
  unfold seedDatabaseFromCSV
  constructor
  · intro h
    rw [if_pos h]
  · intro h
    rw [if_neg (by omega)]
    cases hg : (seedGroups csvText).isEmpty
    · have hne : seedGroups csvText ≠ [] := by
        intro hnil
        rw [hnil] at hg
        exact absurd hg (by decide)
      rw [if_neg (by rw [hg]; decide)]
      exact ⟨by simp [hne], fun _ => rfl⟩
    · have hnil : seedGroups csvText = [] := List.isEmpty_iff.1 hg
      rw [if_pos hg]
      exact ⟨by simp [hnil], fun hne => absurd hnil hne⟩

/-- C5 witness: seeding a one-snapshot store is refused and leaves it
unchanged. -/
theorem C5_seed_guard_witness :
    seedDatabaseFromCSV [] wStore = (false, wStore) :=
  (C5_seed_guard wStore []).1 (by decide)

/-! ## C6: malformed seed rows -/

/-- C6 counterexample: a row whose `Free_Bikes` column is `abc` is not
skipped and does not get `0` free bikes — the parsed station record
carries `NaN` (`none`), refuting "numeric parse failures default to 0"
for the bike/slot/e-bike columns.  (Its `Latitude` column `zz` does
default to 0.) -/
theorem C6_counterexample :
    ∃ st, seedLineStep [] cxBadLine = [(("2024-01-01T00:00:00.000Z").data, [st])] ∧
      st.free_bikes = none ∧ st.free_bikes ≠ some 0 ∧ st.latitude = 0 := by
  refine ⟨stationOfCols (splitOnChar ';' cxBadLine), rfl, rfl, by decide, rfl⟩

/-- C6 (amended): a data row that is blank or has fewer than 7
semicolon-separated columns is skipped silently; in a parsed row, a
`Latitude`/`Longitude` parse failure defaults the coordinate to `0`,
while a `Free_Bikes`/`Empty_Slots`/`E_Bikes` parse failure stores `NaN`
(`none`), not `0`. -/
theorem C6_seed_row_handling (groups : List (Str × List Station))
    (line : Str) (cols : List Str) :
    (isBlank line = true ∨ (splitOnChar ';' line).length < 7 →
      seedLineStep groups line = groups) ∧
    (parseIntJS (cols.getD 4 []) = none →
      (stationOfCols cols).free_bikes = none) ∧
    (parseIntJS (cols.getD 5 []) = none →
      (stationOfCols cols).empty_slots = none) ∧
    (parseIntJS (cols.getD 6 []) = none →
      (stationOfCols cols).extra.bind Extra.ebikes = none) ∧
    (7 < cols.length → parseFloatJS (cols.getD 7 []) = none →
      (stationOfCols cols).latitude = 0) ∧
    (8 < cols.length → parseFloatJS (cols.getD 8 []) = none →
      (stationOfCols cols).longitude = 0) := by
  refine ⟨?_, ?_, ?_, ?_, ?_, ?_⟩
  · intro h
    unfold seedLineStep
    rcases h with h | h
    · rw [if_pos h]
    · split
      · rfl
      · rw [if_pos h]
  · intro h
    rw [List.getD_eq_getElem?_getD] at h
    unfold stationOfCols
    simp [h]
  · intro h
    rw [List.getD_eq_getElem?_getD] at h
    unfold stationOfCols
    simp [h]
  · intro h
    rw [List.getD_eq_getElem?_getD] at h
    unfold stationOfCols
    simp [h, Option.bind, Extra.ebikes]
  · intro hlen h
    rw [List.getD_eq_getElem _ _ hlen] at h
    unfold stationOfCols
    simp [hlen, h]
  · intro hlen h
    rw [List.getD_eq_getElem _ _ hlen] at h
    unfold stationOfCols
    simp [hlen, h]

/-- C6 witness: the amended statement at the malformed row `cxBadLine`
(9 columns, unparseable `Free_Bikes` and `Latitude`), and at a row whose
`E_Bikes` column `qq` fails to parse. -/
theorem C6_seed_row_handling_witness :
    (stationOfCols (splitOnChar ';' cxBadLine)).free_bikes = none ∧
      (stationOfCols (splitOnChar ';' cxBadLine)).latitude = 0 ∧
      (stationOfCols (splitOnChar ';'
        ("2024-01-01T00:00:00.000Z;x;s9;N;3;5;qq;1;2").data)).extra.bind
        Extra.ebikes = none :=
  ⟨(C6_seed_row_handling [] cxBadLine (splitOnChar ';' cxBadLine)).2.1
      (by decide),
   (C6_seed_row_handling [] cxBadLine
      (splitOnChar ';' cxBadLine)).2.2.2.2.1 (by decide) (by decide),
   (C6_seed_row_handling [] cxBadLine (splitOnChar ';'
      ("2024-01-01T00:00:00.000Z;x;s9;N;3;5;qq;1;2").data)).2.2.2.1
      (by decide)⟩

/-! ## Prediction-engine lemmas -/

theorem stationHistoryOf_nil (id : Str) : stationHistoryOf [] id = [] := rfl

theorem predict_eq_map (history : List Snapshot) (st : Station) (now : ℤ)
    (h5 : 5 ≤ (stationHistoryOf history st.id).length) :
    predictStationAvailability history st now =
      timeSlots.map (fun off =>
        predictSlot (stationHistoryOf history st.id) st.free_bikes now off) := by
  have hne : ¬ history.length = 0 := by
    intro h0
    rw [List.length_eq_zero.1 h0, stationHistoryOf_nil] at h5
    simp at h5
  unfold predictStationAvailability
  rw [if_neg hne, if_neg (by omega)]

theorem jsRoundQ_intCast (m : ℤ) : jsRoundQ ((m : ℚ)) = m := by
  unfold jsRoundQ
  rw [Int.floor_eq_iff]
  constructor
  · linarith
  · linarith

theorem jsRoundR_ratCast (q : ℚ) : jsRoundR ((q : ℝ)) = jsRoundQ q := by
  unfold jsRoundR jsRoundQ
  rw [show ((q : ℝ) + 1 / 2) = (((q + 1 / 2 : ℚ)) : ℝ) by push_cast; ring,
    Rat.floor_cast]

theorem predictSlot_zero (sh : List SHPoint) (now : ℤ) (n : ℕ) :
    (predictSlot sh (some ((n : ℚ))) now 0).bikes = some (n : ℤ) ∧
      (predictSlot sh (some ((n : ℚ))) now 0).isProjected = false ∧
      (predictSlot sh (some ((n : ℚ))) now 0).confidenceLow = some (n : ℤ) ∧
      (predictSlot sh (some ((n : ℚ))) now 0).confidenceHigh = some (n : ℤ) := by
  unfold predictSlot slotPredicted slotStdDev
  simp only [if_pos (rfl : (0 : ℤ) = 0), if_true]
  refine ⟨?_, by decide, ?_, ?_⟩
  · simp only [Option.map_some']
    rw [show ((n : ℚ)) = ((n : ℤ) : ℚ) by push_cast; ring, jsRoundQ_intCast]
  · rw [show (((n : ℚ) : ℝ)) - 0 = (((n : ℚ)) : ℝ) by ring, jsRoundR_ratCast,
      show ((n : ℚ)) = ((n : ℤ) : ℚ) by push_cast; ring, jsRoundQ_intCast]
    simp
  · rw [show (((n : ℚ) : ℝ)) + 0 = (((n : ℚ)) : ℝ) by ring, jsRoundR_ratCast,
      show ((n : ℚ)) = ((n : ℤ) : ℚ) by push_cast; ring, jsRoundQ_intCast]

/-- C3 (amended): whenever the per-station series has at least 5 points,
`predictStationAvailability` emits exactly one `PredictionPoint` per
offset in `timeSlots = [0, 15, 30, 45, 60]` — five points covering a
0–60 minute horizon (not thirteen points to 180). -/
theorem C3_prediction_slots (history : List Snapshot)
    (currentStation : Station) (now : ℤ)
    (h5 : 5 ≤ (stationHistoryOf history currentStation.id).length) :
    predictStationAvailability history currentStation now =
      timeSlots.map (fun off =>
        predictSlot (stationHistoryOf history currentStation.id)
          currentStation.free_bikes now off) ∧
      (predictStationAvailability history currentStation now).length = 5 := by
  refine ⟨predict_eq_map history currentStation now h5, ?_⟩
  rw [predict_eq_map history currentStation now h5, List.length_map]
  rfl

/-- C3 witness: the scenario store (6 snapshots of station `X`)
satisfies the precondition and yields five points. -/
theorem C3_prediction_slots_witness :
    (predictStationAvailability scStore scStation scNow).length = 5 :=
  (C3_prediction_slots scStore scStation scNow (by decide)).2

/-- C3 counterexample: on the scenario store the prediction list has 5
points, not one per offset in `{0, 15, …, 180}` (thirteen). -/
theorem C3_counterexample :
    (predictStationAvailability scStore scStation scNow).length = 5 ∧
      (5 : ℕ) ≠ 13 := by
  constructor
  · rw [predict_eq_map scStore scStation scNow (by decide), List.length_map]
    rfl
  · decide

/-- C8: given at least 5 per-station points and a non-negative integer
current reading, the first emitted point (offset 0) reports the live
value, is not marked projected, and has `confidenceLow = confidenceHigh`
(the present is ground truth: stdDev is 0 at offset 0). -/
theorem C8_offset_zero (history : List Snapshot) (currentStation : Station)
    (now : ℤ) (n : ℕ)
    (h5 : 5 ≤ (stationHistoryOf history currentStation.id).length)
    (hfb : currentStation.free_bikes = some ((n : ℚ))) :
    ∃ pt, (predictStationAvailability history currentStation now).head? =
        some pt ∧
      pt.bikes = some (n : ℤ) ∧ pt.isProjected = false ∧
      pt.confidenceLow = pt.confidenceHigh ∧
      pt.confidenceLow = some (n : ℤ) := by
  rw [predict_eq_map history currentStation now h5, hfb]
  have h := predictSlot_zero (stationHistoryOf history currentStation.id) now n
  exact ⟨_, rfl, h.1, h.2.1, by rw [h.2.2.1, h.2.2.2], h.2.2.1⟩

/-- C8 witness: the scenario store with current reading 2. -/
theorem C8_offset_zero_witness :
    ∃ pt, (predictStationAvailability scStore scStation scNow).head? =
        some pt ∧
      pt.bikes = some (2 : ℤ) ∧ pt.isProjected = false ∧
      pt.confidenceLow = pt.confidenceHigh ∧
      pt.confidenceLow = some (2 : ℤ) :=
  C8_offset_zero scStore scStation scNow 2 (by decide) (by decide)

theorem jsSum_all_some (xs : List (Option ℚ))
    (h : ∀ x ∈ xs, ∃ q : ℚ, x = some q) :
    jsSum xs = some ((xs.map (fun o => o.getD 0)).sum) := by
  unfold jsSum
  suffices hgen : ∀ a : ℚ, xs.foldl jsAdd (some a) =
      some (a + (xs.map (fun o => o.getD 0)).sum) by
    have := hgen 0
    simpa using this
  induction xs with
  | nil => intro a; simp
  | cons x rest ih =>
      intro a
      obtain ⟨q, rfl⟩ := h x (by simp)
      rw [List.foldl_cons]
      show List.foldl jsAdd (some (a + q)) rest = _
      rw [ih (fun y hy => h y (by simp [hy])) (a + q)]
      simp only [List.map_cons, List.sum_cons, Option.getD_some]
      ring_nf

theorem avgAt_clean (samples : List SHPoint) (hne : samples ≠ [])
    (hclean : ∀ p ∈ samples, ∃ q : ℚ, p.bikes = some q) :
    avgAt samples =
      some (((samples.map (fun p => p.bikes.getD 0)).sum) /
        (samples.length : ℚ)) := by
  unfold avgAt jsDivNat
  rw [jsSum_all_some _ (by
    intro x hx
    rcases List.mem_map.1 hx with ⟨p, hp, rfl⟩
    exact hclean p hp)]
  rw [if_neg (by
    intro h0
    exact hne (List.length_eq_zero.1 h0))]
  simp only [Option.map_some']
  rw [List.map_map]
  rfl

theorem all_isSome_clean {samples : List SHPoint}
    (h : samples.all (fun p => p.bikes.isSome) = true) :
    ∀ p ∈ samples, ∃ q : ℚ, p.bikes = some q := by
  intro p hp
  have := List.all_eq_true.1 h p hp
  cases hb : p.bikes with
  | none => rw [hb] at this; exact absurd this (by decide)
  | some q => exact ⟨q, rfl⟩

/-- C2 (amended): for offsets in the emitted range other than 0 with a
non-empty (NaN-free) sample set, the projected value is
`current * (1 - offset/60) + mean * (offset/60)` — the decay weight is
`offset/60`, reaching full decay at 60 minutes; in the scenario with six
matching samples of 10 bikes and a live reading of 2, the projection is
8 at offset 45 and 10 at offset 60. -/
theorem C2_decay_blend :
    (∀ (samples : List SHPoint) (cur : Option ℚ) (c : ℚ) (off : ℤ),
      off ≠ 0 → samples ≠ [] → cur = some c →
      samples.all (fun p => p.bikes.isSome) = true →
      slotPredicted samples cur off =
        some (c * (1 - (off : ℚ) / 60) +
          (((samples.map (fun p => p.bikes.getD 0)).sum) /
            (samples.length : ℚ)) * ((off : ℚ) / 60))) ∧
    slotPredicted
        (samplesAt (stationHistoryOf scStore scStation.id) (scNow + 45 * 60000))
        scStation.free_bikes 45 = some 8 ∧
    slotPredicted
        (samplesAt (stationHistoryOf scStore scStation.id) (scNow + 60 * 60000))
        scStation.free_bikes 60 = some 10 := by
  have hmain : ∀ (samples : List SHPoint) (cur : Option ℚ) (c : ℚ) (off : ℤ),
      off ≠ 0 → samples ≠ [] → cur = some c →
      samples.all (fun p => p.bikes.isSome) = true →
      slotPredicted samples cur off =
        some (c * (1 - (off : ℚ) / 60) +
          (((samples.map (fun p => p.bikes.getD 0)).sum) /
            (samples.length : ℚ)) * ((off : ℚ) / 60)) := by
    intro samples cur c off hoff hne hcur hclean
    unfold slotPredicted
    rw [if_neg hoff, if_pos (by
      cases samples with
      | nil => exact absurd rfl hne
      | cons a l => simp)]
    rw [hcur, avgAt_clean samples hne (all_isSome_clean hclean)]
    unfold jsAdd jsMulQ
    simp only [Option.map_some']
  refine ⟨hmain, ?_, ?_⟩
  · rw [hmain _ _ 2 45 (by decide) (by decide) (by decide) (by decide)]
    rw [show samplesAt (stationHistoryOf scStore scStation.id)
        (scNow + 45 * 60000) =
      [⟨376800000, some 10⟩, ⟨981600000, some 10⟩, ⟨1586400000, some 10⟩,
       ⟨2191200000, some 10⟩, ⟨2796000000, some 10⟩, ⟨3400800000, some 10⟩]
      from by decide]
    norm_num
  · rw [hmain _ _ 2 60 (by decide) (by decide) (by decide) (by decide)]
    rw [show samplesAt (stationHistoryOf scStore scStation.id)
        (scNow + 60 * 60000) =
      [⟨376800000, some 10⟩, ⟨981600000, some 10⟩, ⟨1586400000, some 10⟩,
       ⟨2191200000, some 10⟩, ⟨2796000000, some 10⟩, ⟨3400800000, some 10⟩]
      from by decide]
    norm_num

/-- C2 witness: the blend formula at the scenario's offset-45 sample
set. -/
theorem C2_decay_blend_witness :
    slotPredicted
        (samplesAt (stationHistoryOf scStore scStation.id) (scNow + 45 * 60000))
        (some 2) 45 =
      some (2 * (1 - (45 : ℚ) / 60) +
        ((((samplesAt (stationHistoryOf scStore scStation.id)
            (scNow + 45 * 60000)).map (fun p => p.bikes.getD 0)).sum) /
          ((samplesAt (stationHistoryOf scStore scStation.id)
            (scNow + 45 * 60000)).length : ℚ)) * ((45 : ℚ) / 60)) :=
  C2_decay_blend.1 _ _ 2 45 (by decide) (by decide) (by decide) (by decide)

/-- C2 counterexample: at offset 45 in the scenario the code projects 8,
not the 6 that the claimed weight `min(offset/90, 1)` would give. -/
theorem C2_counterexample :
    slotPredicted
        (samplesAt (stationHistoryOf scStore scStation.id) (scNow + 45 * 60000))
        scStation.free_bikes 45 = some 8 ∧
      2 * (1 - min ((45 : ℚ) / 90) 1) + 10 * min ((45 : ℚ) / 90) 1 = 6 ∧
      some (8 : ℚ) ≠ some (6 : ℚ) := by
  refine ⟨?_, ?_, by norm_num⟩
  · rw [show samplesAt (stationHistoryOf scStore scStation.id)
        (scNow + 45 * 60000) =
      [⟨376800000, some 10⟩, ⟨981600000, some 10⟩, ⟨1586400000, some 10⟩,
       ⟨2191200000, some 10⟩, ⟨2796000000, some 10⟩, ⟨3400800000, some 10⟩]
      from by decide]
    show slotPredicted _ (some 2) 45 = some 8
    unfold slotPredicted
    rw [if_neg (by decide), if_pos (by decide)]
    unfold avgAt jsDivNat jsSum
    simp only [List.map_cons, List.map_nil, List.foldl_cons, List.foldl_nil,
      jsAdd, jsMulQ, Option.map_some']
    norm_num
  · rw [min_eq_left (by norm_num)]
    norm_num

/-- C4 (amended): the confidence band around an emitted point uses the
raw population standard deviation — `round(p ± stdDev)` with
`stdDev = sqrt(variance)` when samples exist and the fixed fallback 2
when none do.  There is no `max(1, ·)` floor and no horizon inflation
factor `1 + (offset/60)·0.5`. -/
theorem C4_confidence_band :
    (∀ (sh : List SHPoint) (cur : Option ℚ) (now off : ℤ) (p v : ℚ),
      off ≠ 0 →
      slotPredicted (samplesAt sh (now + off * 60000)) cur off = some p →
      0 < (samplesAt sh (now + off * 60000)).length →
      varAt (samplesAt sh (now + off * 60000)) = some v →
      (predictSlot sh cur now off).confidenceHigh =
          some ⌊(p : ℝ) + Real.sqrt ((v : ℝ)) + 1 / 2⌋ ∧
        (predictSlot sh cur now off).confidenceLow =
          some (max 0 ⌊(p : ℝ) - Real.sqrt ((v : ℝ)) + 1 / 2⌋)) ∧
    (∀ (sh : List SHPoint) (c : ℚ) (now off : ℤ),
      off ≠ 0 → samplesAt sh (now + off * 60000) = [] →
      (predictSlot sh (some c) now off).confidenceHigh =
          some (jsRoundQ (c + 2)) ∧
        (predictSlot sh (some c) now off).confidenceLow =
          some (max 0 (jsRoundQ (c - 2)))) := by
  constructor
  · intro sh cur now off p v hoff hp hlen hv
    unfold predictSlot slotStdDev
    dsimp only
    rw [hp, if_neg hoff, if_pos hlen, hv]
    exact ⟨rfl, rfl⟩
  · intro sh c now off hoff hempty
    unfold predictSlot slotStdDev slotPredicted
    dsimp only
    rw [hempty]
    rw [if_neg hoff, if_neg (by simp), if_neg hoff, if_neg (by simp)]
    constructor
    · show some (jsRoundR ((c : ℝ) + 2)) = some (jsRoundQ (c + 2))
      rw [show ((c : ℝ) + 2) = (((c + 2 : ℚ)) : ℝ) by push_cast; ring,
        jsRoundR_ratCast]
    · show some (0 ⊔ jsRoundR ((c : ℝ) - 2)) = some (0 ⊔ jsRoundQ (c - 2))
      rw [show ((c : ℝ) - 2) = (((c - 2 : ℚ)) : ℝ) by push_cast; ring,
        jsRoundR_ratCast]

/-- C4 witness: the fallback branch at a concrete empty sample set. -/
theorem C4_confidence_band_witness :
    (predictSlot [] (some 2) 0 15).confidenceHigh = some (jsRoundQ (2 + 2)) ∧
      (predictSlot [] (some 2) 0 15).confidenceLow =
        some (max 0 (jsRoundQ (2 - 2))) :=
  C4_confidence_band.2 [] 2 0 15 (by decide) (by decide)

/-- C4 counterexample: at scenario offset 45 all samples are identical,
so the emitted band has width zero (`confidenceHigh = projectedBikes
= 8`), while the claimed `max(1, stdDev·(1 + (offset/60)·0.5))`
inflation would force `confidenceHigh = round(8 + 1) = 9`. -/
theorem C4_counterexample :
    (predictSlot (stationHistoryOf scStore scStation.id) scStation.free_bikes
        scNow 45).confidenceHigh = some 8 ∧
      (predictSlot (stationHistoryOf scStore scStation.id) scStation.free_bikes
        scNow 45).bikes = some 8 ∧
      jsRoundQ ((8 : ℚ) + max 1 (0 * (1 + ((45 : ℚ) / 60) * (1 / 2)))) = 9 ∧
      (8 : ℤ) ≠ 9 := by
  have hs : samplesAt (stationHistoryOf scStore scStation.id)
      (scNow + 45 * 60000) =
      [⟨376800000, some 10⟩, ⟨981600000, some 10⟩, ⟨1586400000, some 10⟩,
       ⟨2191200000, some 10⟩, ⟨2796000000, some 10⟩, ⟨3400800000, some 10⟩] :=
    by decide
  have havg : avgAt ([⟨376800000, some 10⟩, ⟨981600000, some 10⟩,
      ⟨1586400000, some 10⟩, ⟨2191200000, some 10⟩, ⟨2796000000, some 10⟩,
      ⟨3400800000, some 10⟩] : List SHPoint) = some 10 := by
    unfold avgAt jsDivNat jsSum
    simp only [List.map_cons, List.map_nil, List.foldl_cons, List.foldl_nil,
      jsAdd, Option.map_some']
    norm_num
  have hp : slotPredicted ([⟨376800000, some 10⟩, ⟨981600000, some 10⟩,
      ⟨1586400000, some 10⟩, ⟨2191200000, some 10⟩, ⟨2796000000, some 10⟩,
      ⟨3400800000, some 10⟩] : List SHPoint) (some 2) 45 = some 8 := by
    unfold slotPredicted
    rw [if_neg (by decide), if_pos (by decide), havg]
    unfold jsAdd jsMulQ
    simp only [Option.map_some']
    norm_num
  have hv : varAt ([⟨376800000, some 10⟩, ⟨981600000, some 10⟩,
      ⟨1586400000, some 10⟩, ⟨2191200000, some 10⟩, ⟨2796000000, some 10⟩,
      ⟨3400800000, some 10⟩] : List SHPoint) = some 0 := by
    unfold varAt
    dsimp only
    rw [havg]
    unfold jsDivNat jsSum
    simp only [List.map_cons, List.map_nil, List.foldl_cons, List.foldl_nil,
      jsSub, jsMul, jsAdd, Option.map_some']
    norm_num
  refine ⟨?_, ?_, ?_, by decide⟩
  · unfold predictSlot slotStdDev
    dsimp only
    rw [show scStation.free_bikes = some 2 from rfl, hs, hp,
      if_neg (by decide), if_pos (by decide), hv]
    show some (jsRoundR ((8 : ℚ) + Real.sqrt ((0 : ℚ) : ℝ))) = some 8
    rw [show (((0 : ℚ)) : ℝ) = 0 by norm_num, Real.sqrt_zero,
      show ((8 : ℚ) : ℝ) + 0 = (((8 : ℚ)) : ℝ) by ring, jsRoundR_ratCast,
      show (8 : ℚ) = ((8 : ℤ) : ℚ) by norm_num, jsRoundQ_intCast]
  · unfold predictSlot
    dsimp only
    rw [show scStation.free_bikes = some 2 from rfl, hs, hp]
    simp only [Option.map_some']
    rw [show (8 : ℚ) = ((8 : ℤ) : ℚ) by norm_num, jsRoundQ_intCast]
  · rw [show (0 : ℚ) * (1 + ((45 : ℚ) / 60) * (1 / 2)) = 0 by ring,
      show max (1 : ℚ) 0 = 1 from max_eq_left (by norm_num),
      show (8 : ℚ) + 1 = ((9 : ℤ) : ℚ) by norm_num, jsRoundQ_intCast]


theorem all_nonneg_clean {sh : List SHPoint}
    (h : sh.all (fun p => jsGeB p.bikes 0) = true) :
    ∀ p ∈ sh, ∃ q : ℚ, p.bikes = some q ∧ 0 ≤ q := by
  intro p hp
  have := List.all_eq_true.1 h p hp
  cases hb : p.bikes with
  | none => rw [hb] at this; exact absurd this (by decide)
  | some q =>
      rw [hb] at this
      exact ⟨q, rfl, by
        have : decide ((0 : ℚ) ≤ q) = true := this
        exact of_decide_eq_true this⟩

theorem samplesAt_subset (sh : List SHPoint) (t : ℤ) :
    ∀ p ∈ samplesAt sh t, p ∈ sh := by
  intro p hp
  unfold samplesAt at hp
  dsimp only at hp
  split at hp
  · exact List.mem_of_mem_filter hp
  · exact List.mem_of_mem_filter hp

theorem sum_getD_nonneg (samples : List SHPoint)
    (h : ∀ p ∈ samples, ∃ q : ℚ, p.bikes = some q ∧ 0 ≤ q) :
    0 ≤ (samples.map (fun p => p.bikes.getD 0)).sum := by
  apply List.sum_nonneg
  intro x hx
  rcases List.mem_map.1 hx with ⟨p, hp, rfl⟩
  obtain ⟨q, hq, hq0⟩ := h p hp
  rw [hq]
  exact hq0

theorem varAt_clean (samples : List SHPoint) (hne : samples ≠ [])
    (hclean : ∀ p ∈ samples, ∃ q : ℚ, p.bikes = some q) :
    ∃ v : ℚ, varAt samples = some v ∧ 0 ≤ v := by
  have havg := avgAt_clean samples hne hclean
  unfold varAt
  dsimp only
  rw [havg]
  set m := ((samples.map (fun p => p.bikes.getD 0)).sum) /
    (samples.length : ℚ) with hm
  have hterms : ∀ x ∈ samples.map (fun h =>
      jsMul (jsSub h.bikes (some m)) (jsSub h.bikes (some m))),
      ∃ q : ℚ, x = some q := by
    intro x hx
    rcases List.mem_map.1 hx with ⟨p, hp, rfl⟩
    obtain ⟨q, hq⟩ := hclean p hp
    rw [hq]
    exact ⟨(q - m) * (q - m), rfl⟩
  rw [show jsSum (samples.map (fun h =>
      jsMul (jsSub h.bikes (some m)) (jsSub h.bikes (some m)))) =
    some (((samples.map (fun h =>
      jsMul (jsSub h.bikes (some m)) (jsSub h.bikes (some m)))).map
        (fun o => o.getD 0)).sum) from jsSum_all_some _ hterms]
  unfold jsDivNat
  rw [if_neg (by
    intro h0
    exact hne (List.length_eq_zero.1 h0))]
  simp only [Option.map_some']
  refine ⟨_, rfl, ?_⟩
  apply div_nonneg
  · apply List.sum_nonneg
    intro x hx
    rcases List.mem_map.1 hx with ⟨y, hy, rfl⟩
    rcases List.mem_map.1 hy with ⟨p, hp, rfl⟩
    obtain ⟨q', hq'⟩ := hclean p hp
    rw [hq']
    simp only [jsSub, jsMul, Option.getD_some]
    exact mul_self_nonneg (q' - m)
  · positivity

theorem predictSlot_brackets (sh : List SHPoint) (c : ℚ) (now off : ℤ)
    (hc : 0 ≤ c) (hoff : off ∈ timeSlots)
    (hclean : ∀ p ∈ sh, ∃ q : ℚ, p.bikes = some q ∧ 0 ≤ q) :
    ∃ low b high : ℤ,
      (predictSlot sh (some c) now off).confidenceLow = some low ∧
      (predictSlot sh (some c) now off).bikes = some b ∧
      (predictSlot sh (some c) now off).confidenceHigh = some high ∧
      0 ≤ low ∧ low ≤ b ∧ b ≤ high := by
  have hcleanS : ∀ p ∈ samplesAt sh (now + off * 60000),
      ∃ q : ℚ, p.bikes = some q ∧ 0 ≤ q :=
    fun p hp => hclean p (samplesAt_subset sh _ p hp)
  have hcleanS2 : ∀ p ∈ samplesAt sh (now + off * 60000),
      ∃ q : ℚ, p.bikes = some q :=
    fun p hp => ⟨(hcleanS p hp).choose, (hcleanS p hp).choose_spec.1⟩
  obtain ⟨p, hp, hp0, s, hs, hs0⟩ :
      ∃ p : ℚ,
        slotPredicted (samplesAt sh (now + off * 60000)) (some c) off =
          some p ∧ 0 ≤ p ∧
        ∃ s : ℝ, slotStdDev (samplesAt sh (now + off * 60000)) off =
          some s ∧ 0 ≤ s := by
    by_cases h0 : off = 0
    · subst h0
      exact ⟨c, by unfold slotPredicted; rw [if_pos rfl], hc, 0,
        by unfold slotStdDev; rw [if_pos rfl], le_refl 0⟩
    · by_cases hne : samplesAt sh (now + off * 60000) = []
      · refine ⟨c, ?_, hc, 2, ?_, by norm_num⟩
        · unfold slotPredicted
          rw [if_neg h0, if_neg (by rw [hne]; simp)]
        · unfold slotStdDev
          rw [if_neg h0, if_neg (by rw [hne]; simp)]
      · have hlen : 0 < (samplesAt sh (now + off * 60000)).length :=
          List.length_pos.2 hne
        have havg := avgAt_clean _ hne hcleanS2
        obtain ⟨v, hv, hv0⟩ := varAt_clean _ hne hcleanS2
        set m := (((samplesAt sh (now + off * 60000)).map
          (fun p => p.bikes.getD 0)).sum) /
          (((samplesAt sh (now + off * 60000)).length : ℚ)) with hmdef
        have hm0 : 0 ≤ m := by
          rw [hmdef]
          apply div_nonneg (sum_getD_nonneg _ hcleanS)
          positivity
        have hw : 0 ≤ (off : ℚ) / 60 ∧ (off : ℚ) / 60 ≤ 1 := by
          simp only [timeSlots, List.mem_cons, List.not_mem_nil, or_false]
            at hoff
          rcases hoff with rfl | rfl | rfl | rfl | rfl <;> norm_num
        refine ⟨c * (1 - (off : ℚ) / 60) + m * ((off : ℚ) / 60), ?_, ?_,
          Real.sqrt ((v : ℝ)), ?_, Real.sqrt_nonneg _⟩
        · unfold slotPredicted
          rw [if_neg h0, if_pos hlen, havg]
          unfold jsAdd jsMulQ
          simp only [Option.map_some']
        · have h1 : (0 : ℚ) ≤ 1 - (off : ℚ) / 60 := by linarith [hw.2]
          have := mul_nonneg hc h1
          have := mul_nonneg hm0 hw.1
          linarith
        · unfold slotStdDev
          rw [if_neg h0, if_pos hlen, hv]
          rfl
  have hbmono : jsRoundR ((p : ℝ) - s) ≤ jsRoundQ p ∧
      jsRoundQ p ≤ jsRoundR ((p : ℝ) + s) := by
    constructor
    · rw [← jsRoundR_ratCast p]
      unfold jsRoundR
      exact Int.floor_le_floor (by linarith)
    · rw [← jsRoundR_ratCast p]
      unfold jsRoundR
      exact Int.floor_le_floor (by linarith)
  have hb0 : 0 ≤ jsRoundQ p := by
    unfold jsRoundQ
    rw [Int.le_floor]
    push_cast
    linarith
  refine ⟨max 0 (jsRoundR ((p : ℝ) - s)), jsRoundQ p, jsRoundR ((p : ℝ) + s),
    ?_, ?_, ?_, le_max_left 0 _, max_le hb0 hbmono.1, hbmono.2⟩
  · unfold predictSlot
    dsimp only
    rw [hp, hs]
  · unfold predictSlot
    dsimp only
    rw [hp]
    rfl
  · unfold predictSlot
    dsimp only
    rw [hp, hs]

/-- C10: with a non-negative current reading and non-negative (NaN-free)
free-bike values in every per-station history point, every emitted
prediction point satisfies
`0 ≤ confidenceLow ≤ projectedBikes ≤ confidenceHigh`. -/
theorem C10_confidence_brackets (history : List Snapshot)
    (currentStation : Station) (now : ℤ) (c : ℚ)
    (hcur : currentStation.free_bikes = some c) (hc : 0 ≤ c)
    (hclean : (stationHistoryOf history currentStation.id).all
      (fun p => jsGeB p.bikes 0) = true) :
    ∀ pt ∈ predictStationAvailability history currentStation now,
      ∃ low b high : ℤ,
        pt.confidenceLow = some low ∧ pt.bikes = some b ∧
        pt.confidenceHigh = some high ∧ 0 ≤ low ∧ low ≤ b ∧ b ≤ high := by
  intro pt hpt
  unfold predictStationAvailability at hpt
  dsimp only at hpt
  split_ifs at hpt with h1 h2
  · exact absurd hpt (by simp)
  · exact absurd hpt (by simp)
  · rw [hcur] at hpt
    rcases List.mem_map.1 hpt with ⟨off, hoff, rfl⟩
    exact predictSlot_brackets _ c now off hc hoff (all_nonneg_clean hclean)

/-- C10 witness: the scenario store with current reading 2; the emitted
point at offset 0 carries a bracketed confidence band. -/
theorem C10_confidence_brackets_witness :
    ∃ pt ∈ predictStationAvailability scStore scStation scNow,
      ∃ low b high : ℤ,
        pt.confidenceLow = some low ∧ pt.bikes = some b ∧
        pt.confidenceHigh = some high ∧ 0 ≤ low ∧ low ≤ b ∧ b ≤ high := by
  have hmem : predictSlot (stationHistoryOf scStore scStation.id)
      scStation.free_bikes scNow 0 ∈
      predictStationAvailability scStore scStation scNow := by
    rw [predict_eq_map scStore scStation scNow (by decide)]
    exact List.mem_map.2 ⟨0, by decide, rfl⟩
  exact ⟨_, hmem,
    C10_confidence_brackets scStore scStation scNow 2 (by decide) (by decide)
      (by decide) _ hmem⟩

/-! ## Split/join lemmas -/

theorem splitOnChar_not_mem {sep : Char} {s : Str} (h : sep ∉ s) :
    splitOnChar sep s = [s] := by
  induction s with
  | nil => rfl
  | cons c cs ih =>
      unfold splitOnChar
      rw [if_neg (by
        intro hc
        exact h (hc ▸ List.mem_cons_self c cs))]
      rw [ih (fun hm => h (List.mem_cons_of_mem c hm))]

theorem splitOnChar_append_sep {sep : Char} {xs ys : Str} (h : sep ∉ xs) :
    splitOnChar sep (xs ++ sep :: ys) = xs :: splitOnChar sep ys := by
  induction xs with
  | nil =>
      rw [List.nil_append]
      conv_lhs => unfold splitOnChar
      rw [if_pos rfl]
  | cons c cs ih =>
      have hc : c ≠ sep := by
        intro hc
        exact h (hc ▸ List.mem_cons_self c cs)
      rw [List.cons_append]
      conv_lhs => unfold splitOnChar
      rw [if_neg hc, ih (fun hm => h (List.mem_cons_of_mem c hm))]

theorem splitOnChar_join {sep : Char} {pieces : List Str}
    (hne : pieces ≠ []) (h : ∀ p ∈ pieces, sep ∉ p) :
    splitOnChar sep (joinChar sep pieces) = pieces := by
  induction pieces with
  | nil => exact absurd rfl hne
  | cons p rest ih =>
      cases rest with
      | nil => exact splitOnChar_not_mem (h p (by simp))
      | cons q qs =>
          show splitOnChar sep (p ++ sep :: joinChar sep (q :: qs)) = _
          rw [splitOnChar_append_sep (h p (by simp)),
            ih (by simp) (fun r hr => h r (List.mem_cons_of_mem p hr))]

theorem splitOnChar_flat_rows {rows : List Str}
    (h : ∀ r ∈ rows, '\n' ∉ r) :
    splitOnChar '\n' (rows.flatMap (fun r => r ++ ['\n'])) = rows ++ [[]] := by
  induction rows with
  | nil => rfl
  | cons r rest ih =>
      rw [List.flatMap_cons, List.append_assoc, List.singleton_append,
        splitOnChar_append_sep (h r (by simp)),
        ih (fun x hx => h x (List.mem_cons_of_mem r hx))]
      rfl

/-! ## Character-set lemmas for exported rows -/

theorem isDigit_good {c : Char} (h : c.isDigit = true) :
    c ≠ ';' ∧ c ≠ '\n' := by
  constructor <;> intro hc <;> subst hc <;> exact absurd h (by decide)

theorem natToStr_good (n : ℕ) : ∀ c ∈ natToStr n, c ≠ ';' ∧ c ≠ '\n' :=
  fun c hc => isDigit_good (natToStr_all_digit n c hc)

theorem intToStr_good (i : ℤ) : ∀ c ∈ intToStr i, c ≠ ';' ∧ c ≠ '\n' := by
  intro c hc
  unfold intToStr at hc
  split at hc
  · rcases List.mem_cons.1 hc with rfl | hm
    · exact ⟨by decide, by decide⟩
    · exact natToStr_good _ c hm
  · exact natToStr_good _ c hc

theorem padDigits_lt (k n : ℕ) : ∀ d ∈ padDigits k n, d < 10 := by
  induction k generalizing n with
  | zero => intro d hd; exact absurd hd (by simp [padDigits])
  | succ k ih =>
      intro d hd
      unfold padDigits at hd
      rcases List.mem_append.1 hd with h | h
      · exact ih _ d h
      · simp only [List.mem_singleton] at h
        omega

theorem padStr_good (k n : ℕ) : ∀ c ∈ padStr k n, c ≠ ';' ∧ c ≠ '\n' := by
  intro c hc
  rcases List.mem_map.1 hc with ⟨d, hd, rfl⟩
  exact isDigit_good (digitChar_isDigit (padDigits_lt k n d hd))

theorem qToStr_good (q : ℚ) : ∀ c ∈ qToStr q, c ≠ ';' ∧ c ≠ '\n' := by
  intro c hc
  unfold qToStr at hc
  split at hc
  · exact intToStr_good _ c hc
  · split at hc
    · rcases List.mem_append.1 hc with h | h
      · rcases List.mem_append.1 h with h1 | h1
        · split at h1
          · rcases List.mem_singleton.1 h1 with rfl
            exact ⟨by decide, by decide⟩
          · exact absurd h1 (by simp)
        · exact natToStr_good _ c h1
      · rcases List.mem_cons.1 h with rfl | h3
        · exact ⟨by decide, by decide⟩
        · exact padStr_good _ _ c h3
    · rcases List.mem_append.1 hc with h | h
      · exact intToStr_good _ c h
      · rcases List.mem_cons.1 h with rfl | h2
        · exact ⟨by decide, by decide⟩
        · exact natToStr_good _ c h2

theorem jsNumToStr_good (v : Option ℚ) :
    ∀ c ∈ jsNumToStr v, c ≠ ';' ∧ c ≠ '\n' := by
  intro c hc
  cases v with
  | none =>
      simp only [jsNumToStr, List.mem_cons, List.not_mem_nil, or_false] at hc
      rcases hc with rfl | rfl | rfl <;> exact ⟨by decide, by decide⟩
  | some q => exact qToStr_good q c hc

theorem safeName_good {name : Str} (h : ∀ c ∈ name, c ≠ ';' ∧ c ≠ '\n') :
    ∀ c ∈ safeName name, c ≠ ';' ∧ c ≠ '\n' := by
  intro c hc
  unfold safeName at hc
  rcases List.mem_cons.1 hc with rfl | hm
  · exact ⟨by decide, by decide⟩
  · rcases List.mem_append.1 hm with h2 | h2
    · rcases List.mem_flatMap.1 h2 with ⟨a, ha, hc2⟩
      by_cases ha2 : a = '"'
      · rw [if_pos ha2] at hc2
        rcases List.mem_cons.1 hc2 with rfl | h3
        · exact ⟨by decide, by decide⟩
        · rcases List.mem_singleton.1 h3 with rfl
          exact ⟨by decide, by decide⟩
      · rw [if_neg ha2] at hc2
        rcases List.mem_singleton.1 hc2 with rfl
        exact h c ha
    · rcases List.mem_singleton.1 h2 with rfl
      exact ⟨by decide, by decide⟩

theorem joinChar_mem {sep : Char} {pieces : List Str} {c : Char}
    (hc : c ∈ joinChar sep pieces) : c = sep ∨ ∃ p ∈ pieces, c ∈ p := by
  induction pieces with
  | nil => exact absurd hc (by simp [joinChar])
  | cons p rest ih =>
      cases rest with
      | nil =>
          right
          exact ⟨p, by simp, hc⟩
      | cons q qs =>
          rcases List.mem_append.1 hc with h | h
          · right
            exact ⟨p, by simp, h⟩
          · rcases List.mem_cons.1 h with rfl | h2
            · exact Or.inl rfl
            · rcases ih h2 with h3 | ⟨r, hr, hcr⟩
              · exact Or.inl h3
              · exact Or.inr ⟨r, List.mem_cons_of_mem p hr, hcr⟩

theorem goodTextB_spec {s : Str} (h : goodTextB s = true) :
    ∀ c ∈ s, c ≠ ';' ∧ c ≠ '\n' := by
  intro c hc
  have := List.all_eq_true.1 h c hc
  simp only [Bool.and_eq_true, Bool.not_eq_eq_eq_not, Bool.not_true,
    decide_eq_false_iff_not] at this
  exact this

theorem csvRow_cols (ts : ℤ) (st : Station)
    (hid : goodTextB st.id = true) (hname : goodTextB st.name = true) :
    splitOnChar ';' (csvRow ts st) =
      [isoStringZ ts, toLocaleStringModel ts, st.id, safeName st.name,
       jsNumToStr st.free_bikes, jsNumToStr st.empty_slots,
       qToStr (ebikesOf st), qToStr st.latitude, qToStr st.longitude] := by
  unfold csvRow
  apply splitOnChar_join (by simp)
  intro p hp
  simp only [List.mem_cons, List.not_mem_nil, or_false] at hp
  rcases hp with rfl | rfl | rfl | rfl | rfl | rfl | rfl | rfl | rfl
  · exact fun hm => (isoString_good _ _ hm).1 rfl
  · exact fun hm => (isoString_good _ _ hm).1 rfl
  · exact fun hm => (goodTextB_spec hid _ hm).1 rfl
  · exact fun hm => (safeName_good (goodTextB_spec hname) _ hm).1 rfl
  · exact fun hm => (jsNumToStr_good _ _ hm).1 rfl
  · exact fun hm => (jsNumToStr_good _ _ hm).1 rfl
  · exact fun hm => (qToStr_good _ _ hm).1 rfl
  · exact fun hm => (qToStr_good _ _ hm).1 rfl
  · exact fun hm => (qToStr_good _ _ hm).1 rfl

theorem csvRow_no_newline (ts : ℤ) (st : Station)
    (hid : goodTextB st.id = true) (hname : goodTextB st.name = true) :
    '\n' ∉ csvRow ts st := by
  intro h
  unfold csvRow at h
  rcases joinChar_mem h with h1 | ⟨p, hp, hmem⟩
  · exact absurd h1 (by decide)
  · simp only [List.mem_cons, List.not_mem_nil, or_false] at hp
    rcases hp with rfl | rfl | rfl | rfl | rfl | rfl | rfl | rfl | rfl
    · exact (isoString_good _ _ hmem).2.1 rfl
    · exact (isoString_good _ _ hmem).2.1 rfl
    · exact (goodTextB_spec hid _ hmem).2 rfl
    · exact (safeName_good (goodTextB_spec hname) _ hmem).2 rfl
    · exact (jsNumToStr_good _ _ hmem).2 rfl
    · exact (jsNumToStr_good _ _ hmem).2 rfl
    · exact (qToStr_good _ _ hmem).2 rfl
    · exact (qToStr_good _ _ hmem).2 rfl
    · exact (qToStr_good _ _ hmem).2 rfl

theorem csvRow_nonblank (ts : ℤ) (st : Station) :
    isBlank (csvRow ts st) = false := by
  obtain ⟨c, cs, hiso, hdig⟩ := isoString_head ts.toNat
  unfold csvRow
  show isBlank (joinChar ';' (isoStringZ ts ::
    [toLocaleStringModel ts, st.id, safeName st.name,
     jsNumToStr st.free_bikes, jsNumToStr st.empty_slots,
     qToStr (ebikesOf st), qToStr st.latitude, qToStr st.longitude])) = false
  rw [show joinChar ';' (isoStringZ ts ::
      [toLocaleStringModel ts, st.id, safeName st.name,
       jsNumToStr st.free_bikes, jsNumToStr st.empty_slots,
       qToStr (ebikesOf st), qToStr st.latitude, qToStr st.longitude]) =
    isoStringZ ts ++ ';' :: joinChar ';'
      [toLocaleStringModel ts, st.id, safeName st.name,
       jsNumToStr st.free_bikes, jsNumToStr st.empty_slots,
       qToStr (ebikesOf st), qToStr st.latitude, qToStr st.longitude] from rfl]
  rw [show isoStringZ ts = isoString ts.toNat from rfl, hiso]
  rw [List.cons_append]
  unfold isBlank
  rw [List.all_cons, isDigit_not_whitespace hdig]
  rfl

theorem parseIntJS_whole {q : ℚ} (h0 : 0 ≤ q) (hden : q.den = 1) :
    (parseIntJS (qToStr q)).map (fun i => ((i : ℚ))) = some q := by
  unfold qToStr
  rw [if_pos hden]
  unfold intToStr
  rw [if_neg (by
    rw [not_lt]
    exact Rat.num_nonneg.2 h0)]
  rw [parseIntJS_natToStr]
  show some (((q.num.natAbs : ℤ) : ℚ)) = some q
  rw [Int.natAbs_of_nonneg (Rat.num_nonneg.2 h0)]
  congr 1
  have h2 := Rat.num_div_den q
  rw [hden] at h2
  simpa using h2

theorem parsed_free_bikes (ts : ℤ) (st : Station)
    (hid : goodTextB st.id = true) (hname : goodTextB st.name = true)
    (hwhole : wholeNumB st.free_bikes = true) :
    (stationOfCols (splitOnChar ';' (csvRow ts st))).free_bikes =
      st.free_bikes := by
  rw [csvRow_cols ts st hid hname]
  cases hfb : st.free_bikes with
  | none =>
      rw [hfb] at hwhole
      exact absurd hwhole (by decide)
  | some q =>
      rw [hfb] at hwhole
      simp only [wholeNumB, Bool.and_eq_true, decide_eq_true_eq] at hwhole
      have h2 := parseIntJS_whole hwhole.1 hwhole.2
      exact h2

theorem insertGrouped_fresh (key : Str) (st : Station)
    (groups : List (Str × List Station)) (h : ∀ g ∈ groups, g.1 ≠ key) :
    insertGrouped key st groups = groups ++ [(key, [st])] := by
  induction groups with
  | nil => rfl
  | cons g rest ih =>
      unfold insertGrouped
      rw [if_neg (h g (by simp)), ih (fun x hx => h x (by simp [hx]))]
      rfl

theorem insertGrouped_last (key : Str) (st : Station)
    (groups : List (Str × List Station)) (sts : List Station)
    (h : ∀ g ∈ groups, g.1 ≠ key) :
    insertGrouped key st (groups ++ [(key, sts)]) =
      groups ++ [(key, sts ++ [st])] := by
  induction groups with
  | nil =>
      rw [List.nil_append, List.nil_append]
      unfold insertGrouped
      rw [if_pos rfl]
  | cons g rest ih =>
      rw [List.cons_append]
      unfold insertGrouped
      rw [if_neg (h g (by simp)), ih (fun x hx => h x (by simp [hx]))]
      rfl

theorem seedLineStep_row (groups : List (Str × List Station)) (ts : ℤ)
    (st : Station) (hid : goodTextB st.id = true)
    (hname : goodTextB st.name = true) :
    seedLineStep groups (csvRow ts st) =
      insertGrouped (isoStringZ ts)
        (stationOfCols (splitOnChar ';' (csvRow ts st))) groups := by
  have hcols := csvRow_cols ts st hid hname
  have hlen : ¬ (splitOnChar ';' (csvRow ts st)).length < 7 := by
    rw [hcols]
    simp
  unfold seedLineStep
  rw [csvRow_nonblank ts st]
  simp only [Bool.false_eq_true, if_false]
  rw [if_neg hlen, hcols]
  rfl

theorem foldSnap_aux (ts : ℤ) (stations : List Station) :
    ∀ (groups : List (Str × List Station)) (acc : List Station),
    (∀ st ∈ stations, goodStationB st = true) →
    (∀ g ∈ groups, g.1 ≠ isoStringZ ts) →
    List.foldl seedLineStep (groups ++ [(isoStringZ ts, acc)])
        (stations.map (csvRow ts)) =
      groups ++ [(isoStringZ ts, acc ++ stations.map (fun st =>
        stationOfCols (splitOnChar ';' (csvRow ts st))))] := by
  induction stations with
  | nil =>
      intro groups acc hgood hfresh
      simp
  | cons st rest ih =>
      intro groups acc hgood hfresh
      have hg := hgood st (by simp)
      simp only [goodStationB, Bool.and_eq_true] at hg
      rw [List.map_cons, List.foldl_cons,
        seedLineStep_row _ ts st hg.1.1 hg.1.2,
        insertGrouped_last _ _ _ _ hfresh,
        ih groups (acc ++ [stationOfCols (splitOnChar ';' (csvRow ts st))])
          (fun x hx => hgood x (by simp [hx])) hfresh]
      simp

theorem foldSnap (ts : ℤ) (stations : List Station)
    (groups : List (Str × List Station)) (hne : stations ≠ [])
    (hgood : ∀ st ∈ stations, goodStationB st = true)
    (hfresh : ∀ g ∈ groups, g.1 ≠ isoStringZ ts) :
    List.foldl seedLineStep groups (stations.map (csvRow ts)) =
      groups ++ [(isoStringZ ts, stations.map (fun st =>
        stationOfCols (splitOnChar ';' (csvRow ts st))))] := by
  cases stations with
  | nil => exact absurd rfl hne
  | cons st rest =>
      have hg := hgood st (by simp)
      simp only [goodStationB, Bool.and_eq_true] at hg
      rw [List.map_cons, List.foldl_cons,
        seedLineStep_row _ ts st hg.1.1 hg.1.2,
        insertGrouped_fresh _ _ _ hfresh,
        foldSnap_aux ts rest groups
          [stationOfCols (splitOnChar ';' (csvRow ts st))]
          (fun x hx => hgood x (by simp [hx])) hfresh]
      simp

theorem foldStore (db : List Snapshot) :
    ∀ (groups : List (Str × List Station)),
    (∀ snap ∈ db, snap.stations ≠ []) →
    (∀ snap ∈ db, ∀ st ∈ snap.stations, goodStationB st = true) →
    db.Pairwise (fun a b => isoStringZ a.timestamp ≠ isoStringZ b.timestamp) →
    (∀ snap ∈ db, ∀ g ∈ groups, g.1 ≠ isoStringZ snap.timestamp) →
    List.foldl seedLineStep groups
        (db.flatMap (fun snap => snap.stations.map (csvRow snap.timestamp))) =
      groups ++ db.map (fun snap => (isoStringZ snap.timestamp,
        snap.stations.map (fun st =>
          stationOfCols (splitOnChar ';' (csvRow snap.timestamp st))))) := by
  induction db with
  | nil =>
      intro groups _ _ _ _
      simp
  | cons snap rest ih =>
      intro groups hne hgood hdist hfresh
      rw [List.flatMap_cons, List.foldl_append,
        foldSnap snap.timestamp snap.stations groups (hne snap (by simp))
          (hgood snap (by simp)) (fun g hg => hfresh snap (by simp) g hg)]
      rw [ih (groups ++ [(isoStringZ snap.timestamp, _)])
        (fun x hx => hne x (by simp [hx]))
        (fun x hx => hgood x (by simp [hx]))
        (List.Pairwise.of_cons hdist)
        ?hfresh2]
      · simp
      case hfresh2 =>
        intro s hs g hg
        rcases List.mem_append.1 hg with h | h
        · exact hfresh s (by simp [hs]) g h
        · rcases List.mem_singleton.1 h with rfl
          exact (List.pairwise_cons.1 hdist).1 s hs

theorem exportBody_flat (db : Store) :
    db.flatMap (fun snap =>
        snap.stations.flatMap (fun st => csvRow snap.timestamp st ++ ['\n'])) =
      (db.flatMap (fun snap =>
        snap.stations.map (csvRow snap.timestamp))).flatMap
        (fun r => r ++ ['\n']) := by
  rw [List.flatMap_assoc]
  congr 1
  funext snap
  rw [List.flatMap_map]

theorem seedGroups_export (db : Store)
    (hstations : ∀ snap ∈ db, snap.stations ≠ [])
    (hgood : ∀ snap ∈ db, ∀ st ∈ snap.stations, goodStationB st = true)
    (hdist : db.Pairwise
      (fun a b => isoStringZ a.timestamp ≠ isoStringZ b.timestamp)) :
    seedGroups (csvHeader ++ '\n' ::
        db.flatMap (fun snap =>
          snap.stations.flatMap (fun st =>
            csvRow snap.timestamp st ++ ['\n']))) =
      db.map (fun snap => (isoStringZ snap.timestamp,
        snap.stations.map (fun st =>
          stationOfCols (splitOnChar ';' (csvRow snap.timestamp st))))) := by
  unfold seedGroups
  rw [exportBody_flat db]
  rw [splitOnChar_append_sep (by decide)]
  rw [splitOnChar_flat_rows ?hrows]
  case hrows =>
    intro r hr
    rcases List.mem_flatMap.1 hr with ⟨snap, hsnap, hrmem⟩
    rcases List.mem_map.1 hrmem with ⟨st, hst, rfl⟩
    have hg := hgood snap hsnap st hst
    simp only [goodStationB, Bool.and_eq_true] at hg
    exact csvRow_no_newline snap.timestamp st hg.1.1 hg.1.2
  rw [List.drop_one, List.tail_cons, List.foldl_append]
  rw [foldStore db [] hstations hgood hdist (by simp)]
  rfl

/-- C1: exporting any well-formed non-empty store with `downloadCSV`'s
serialization and re-importing the text with `seedDatabaseFromCSV` into a
freshly cleared store succeeds and reproduces the snapshot count (one per
distinct ISO-timestamp group) and the total free-bike sum.  Well-formed:
every snapshot holds at least one station, ids/names are table-safe,
free-bike counts are non-negative integers, timestamps are distinct and
representable. -/
theorem sum_getD_parsed (ts : ℤ) (stations : List Station)
    (hgood : ∀ st ∈ stations, goodStationB st = true) :
    ((stations.map (fun st =>
      stationOfCols (splitOnChar ';' (csvRow ts st)))).map
        (fun st => st.free_bikes.getD 0)).sum =
      (stations.map (fun st => st.free_bikes.getD 0)).sum := by
  induction stations with
  | nil => rfl
  | cons st rest ih =>
      rw [List.map_cons, List.map_cons, List.map_cons, List.sum_cons,
        List.sum_cons]
      have hg := hgood st (by simp)
      simp only [goodStationB, Bool.and_eq_true] at hg
      rw [parsed_free_bikes ts st hg.1.1 hg.1.2 hg.2,
        ih (fun x hx => hgood x (by simp [hx]))]

theorem totalFreeBikes_parsed (db : Store)
    (hgood : ∀ snap ∈ db, ∀ st ∈ snap.stations, goodStationB st = true) :
    totalFreeBikes ((db.map (fun snap => (isoStringZ snap.timestamp,
        snap.stations.map (fun st =>
          stationOfCols (splitOnChar ';' (csvRow snap.timestamp st)))))).map
        (fun g => { timestamp := dateParseModel g.1, stations := g.2 })) =
      totalFreeBikes db := by
  induction db with
  | nil => rfl
  | cons snap rest ih =>
      have h1 := sum_getD_parsed snap.timestamp snap.stations
        (hgood snap (by simp))
      have h2 := ih (fun x hx => hgood x (by simp [hx]))
      unfold totalFreeBikes at h2 ⊢
      rw [List.map_cons, List.map_cons, List.map_cons, List.map_cons,
        List.sum_cons, List.sum_cons]
      exact congrArg₂ (fun a b => a + b) h1 h2

/-- C1: exporting any well-formed non-empty store with `downloadCSV`'s
serialization and re-importing the text with `seedDatabaseFromCSV` into a
freshly cleared store succeeds and reproduces the snapshot count (one per
distinct ISO-timestamp group) and the total free-bike sum.  Well-formed:
every snapshot holds at least one station, ids and names are table-safe,
free-bike counts are non-negative integers, and timestamps are distinct
and representable. -/
theorem C1_roundtrip (db : Store) (hne : db ≠ [])
    (hstations : ∀ snap ∈ db, snap.stations ≠ [])
    (hgood : ∀ snap ∈ db, ∀ st ∈ snap.stations, goodStationB st = true)
    (hts : ∀ snap ∈ db, 0 ≤ snap.timestamp ∧
      snap.timestamp < (isoMsBound : ℤ))
    (hdist : db.Pairwise (fun a b => a.timestamp ≠ b.timestamp)) :
    ∃ text, exportTable db = some text ∧
      (seedDatabaseFromCSV text []).1 = true ∧
      getSnapshotCount (seedDatabaseFromCSV text []).2 =
        getSnapshotCount db ∧
      totalFreeBikes (seedDatabaseFromCSV text []).2 =
        totalFreeBikes db := by
  have hdistIso : db.Pairwise
      (fun a b => isoStringZ a.timestamp ≠ isoStringZ b.timestamp) := by
    refine hdist.imp_of_mem ?_
    intro a b ha hb hnets heq
    exfalso
    apply hnets
    have hta := hts a ha
    have htb := hts b hb
    have h1 : a.timestamp.toNat < isoMsBound := by
      simp only [isoMsBound] at hta ⊢
      omega
    have h2 : b.timestamp.toNat < isoMsBound := by
      simp only [isoMsBound] at htb ⊢
      omega
    have heq' : isoString a.timestamp.toNat = isoString b.timestamp.toNat :=
      heq
    have htoNat := isoString_inj h1 h2 heq'
    omega
  have hgroups := seedGroups_export db hstations hgood hdistIso
  have hmapne : ((db.map (fun snap => (isoStringZ snap.timestamp,
      snap.stations.map (fun st =>
        stationOfCols (splitOnChar ';' (csvRow snap.timestamp st)))))).isEmpty)
      ≠ true := by
    intro h
    exact hne (List.map_eq_nil_iff.1 (List.isEmpty_iff.1 h))
  have hseed : seedDatabaseFromCSV (csvHeader ++ '\n' ::
      db.flatMap (fun snap =>
        snap.stations.flatMap (fun st =>
          csvRow snap.timestamp st ++ ['\n']))) [] =
      (true, ([] : Store) ++ (db.map (fun snap => (isoStringZ snap.timestamp,
        snap.stations.map (fun st =>
          stationOfCols (splitOnChar ';' (csvRow snap.timestamp st)))))).map
        (fun g => { timestamp := dateParseModel g.1, stations := g.2 })) := by
    unfold seedDatabaseFromCSV
    rw [if_neg (by decide)]
    dsimp only
    rw [hgroups, if_neg hmapne]
  refine ⟨csvHeader ++ '\n' ::
    db.flatMap (fun snap =>
      snap.stations.flatMap (fun st => csvRow snap.timestamp st ++ ['\n'])),
    ?_, ?_, ?_, ?_⟩
  · unfold exportTable
    rw [if_neg (by
      intro h
      exact hne (List.isEmpty_iff.1 h))]
  · rw [hseed]
  · rw [hseed]
    show (List.map
        (fun g =>
          ({ timestamp := dateParseModel g.1, stations := g.2 } : Snapshot))
        (List.map (fun snap => (isoStringZ snap.timestamp,
          List.map (fun st =>
            stationOfCols (splitOnChar ';' (csvRow snap.timestamp st)))
            snap.stations)) db)).length = db.length
    rw [List.length_map, List.length_map]
  · rw [hseed]
    show totalFreeBikes ((db.map (fun snap => (isoStringZ snap.timestamp,
      snap.stations.map (fun st =>
        stationOfCols (splitOnChar ';' (csvRow snap.timestamp st)))))).map
        (fun g => { timestamp := dateParseModel g.1, stations := g.2 })) =
      totalFreeBikes db
    exact totalFreeBikes_parsed db hgood
/-- C1 counterexample: the claim ranges over every store reachable by
append/seed, but `saveSnapshot` with an empty live station list stores a
snapshot with no stations; exporting that store yields a header-only
table whose re-import produces no group, returns `false`, and reproduces
a snapshot count of 0 instead of 1. -/
theorem C1_counterexample :
    saveSnapshot [] 0 [] = cxEmptyStationsStore ∧
    exportTable cxEmptyStationsStore = some (csvHeader ++ ['\n']) ∧
    (seedDatabaseFromCSV (csvHeader ++ ['\n']) []).1 = false ∧
    getSnapshotCount (seedDatabaseFromCSV (csvHeader ++ ['\n']) []).2 = 0 ∧
    getSnapshotCount cxEmptyStationsStore = 1 := by
  refine ⟨rfl, rfl, ?_, ?_, rfl⟩
  · decide
  · decide

theorem C1_roundtrip_witness :
    ∃ text, exportTable wStore = some text ∧
      (seedDatabaseFromCSV text []).1 = true ∧
      getSnapshotCount (seedDatabaseFromCSV text []).2 =
        getSnapshotCount wStore ∧
      totalFreeBikes (seedDatabaseFromCSV text []).2 =
        totalFreeBikes wStore := by
  apply C1_roundtrip wStore
  · intro h
    exact absurd h (by simp [wStore])
  · intro snap hsnap
    simp only [wStore, List.mem_singleton] at hsnap
    subst hsnap
    simp
  · intro snap hsnap
    simp only [wStore, List.mem_singleton] at hsnap
    subst hsnap
    intro st hst
    simp only [List.mem_singleton] at hst
    subst hst
    decide
  · intro snap hsnap
    simp only [wStore, List.mem_singleton] at hsnap
    subst hsnap
    constructor
    · decide
    · decide
  · simp [wStore]
